import Mathlib

/-!
# Verification of the pg_ext_demo lifecycle orchestrator

Shallow embedding of `src/pg_demo/pg_ext_demo.py`: a guided demo script that
validates a PostgreSQL precondition, sets up a schema and two extensions,
runs two demo phases, and tears everything down.

The database command executor (psycopg2) is modelled as a transactional
machine over an abstract database state `DB`.  Each SQL statement issued by
the script is a constructor of `Sql`; `applySql` gives its PostgreSQL
semantics on the modelled state (failure = `none`, read = `some none`,
write = `some (some db')`).  A connection `Conn` holds the open-transaction
flag, the uncommitted working state (`pend`) and the aborted-transaction
flag (psycopg2 refuses statements inside a failed transaction until
rollback).  Every phase function returns the trace of issued statements and
commits/rollbacks alongside the resulting state, so temporal claims are
statements about traces.
-/

/-- Names of the SQL statements issued by the script (console I/O, logging
and data faking are excluded, matching the spec's scope).  `createExtension`
and `dropExtension` carry the extension name. -/
inductive Sql where
  | selectPreload          -- select setting from pg_settings (check_preload_library)
  | selectPgExtension      -- select extname from pg_catalog.pg_extension (check_existing_extensions)
  | createSchemaDemo       -- create schema __demo authorization ... (setup_demo)
  | createExtension (name : String)  -- create extension pg_trgm / pg_stat_statements (setup_demo)
  | setSearchPath          -- set search_path = __demo, public (setup_demo)
  | createAddrTable        -- create table __demo.addr (create_addr_table)
  | copyAddr               -- COPY into __demo.addr (copy_addr_data)
  | analyzeAddr            -- analyze __demo.addr (autocommit)
  | createBtreeIdx         -- create index if not exists ix_addr_street
  | createGinIdx           -- create index if not exists ix_addr_street_gin (needs pg_trgm)
  | explainAddr            -- EXPLAIN ANALYZE select ... from __demo.addr
  | queryAddr              -- demo queries QUERY1/QUERY2/QUERY3 on __demo.addr
  | resetPss               -- select pg_stat_statements_reset()
  | selectPss              -- select * from public.pg_stat_statements
  | createUser             -- create user __monitor ... (create_unpriveleged_user)
  | grantConnect           -- grant connect on database postgres to __monitor
  | grantUsage             -- grant usage on schema __demo to __monitor
  | alterUserSp            -- alter user __monitor set search_path
  | createFuncPss          -- create or replace function __demo.pg_stat_statements()
  | grantExecFunc          -- grant execute on function __demo.pg_stat_statements()
  | selectCurrentUser      -- select current_user
  | selectPssFunc          -- select * from __demo.pg_stat_statements()
  | revokeFunc             -- revoke all on function __demo.pg_stat_statements() from __monitor
  | revokeSchema           -- revoke all on schema __demo from __monitor
  | revokeDb               -- revoke all on database postgres from __monitor
  | dropSchemaDemo         -- drop schema if exists __demo cascade
  | dropRoleMonitor        -- drop role if exists __monitor
  | selectDemoExts         -- select extname from pg_extension where extname in (...)
  | dropExtension (name : String)    -- drop extension if exists <name>
  deriving DecidableEq, Repr

/-- Observable events on the database connections: a statement issued on the
primary session (`sql`), an explicit transaction boundary on the primary
session (`commit`/`rollback`), and the secondary (unprivileged) session's
lifecycle (`uconnect`/`usql`/`urollback`/`uclose`). -/
inductive Event where
  | sql (s : Sql)
  | commit
  | rollback
  | uconnect
  | usql (s : Sql)
  | urollback
  | uclose
  deriving DecidableEq, Repr

/-- Abstract state of the target database: which demo objects exist, which
privileges the `__monitor` role holds, and the installed extensions
(`exts`, by name).  `preloadPss` is the server's `shared_preload_libraries`
setting (read-only for the script); `searchPathDemo` records the session
search-path change made by setup. -/
structure DB where
  preloadPss : Bool
  schemaDemo : Bool
  addrTable : Bool
  btreeIdx : Bool
  ginIdx : Bool
  funcPss : Bool
  roleMonitor : Bool
  privDb : Bool
  privSchema : Bool
  privFunc : Bool
  searchPathDemo : Bool
  exts : List String
  deriving DecidableEq, Repr

/-- Semantics of each statement on a database state, following PostgreSQL:
`none` = the statement errors, `some none` = read (no state change),
`some (some db')` = write producing `db'`.  Destructive statements written
with `if exists` in the source tolerate an absent target; `drop role` fails
while the role still holds privileges (dependency error); dropping an
extension fails while a modelled object depends on it. -/
def applySql : Sql → DB → Option (Option DB)
  | .selectPreload, _ => some none
  | .selectPgExtension, _ => some none
  | .selectDemoExts, _ => some none
  | .selectCurrentUser, _ => some none
  | .createSchemaDemo, db =>
      if db.schemaDemo then none else some (some { db with schemaDemo := true })
  | .createExtension n, db =>
      if db.exts.contains n then none else some (some { db with exts := n :: db.exts })
  | .setSearchPath, db => some (some { db with searchPathDemo := true })
  | .createAddrTable, db =>
      if db.schemaDemo && !db.addrTable then some (some { db with addrTable := true }) else none
  | .copyAddr, db => if db.addrTable then some (some db) else none
  | .analyzeAddr, db => if db.addrTable then some none else none
  | .createBtreeIdx, db =>
      if db.addrTable then some (some { db with btreeIdx := true }) else none
  | .createGinIdx, db =>
      if db.addrTable && db.exts.contains "pg_trgm" then
        some (some { db with ginIdx := true }) else none
  | .explainAddr, db => if db.schemaDemo && db.addrTable then some none else none
  | .queryAddr, db => if db.schemaDemo && db.addrTable then some none else none
  | .resetPss, db =>
      if db.preloadPss && db.exts.contains "pg_stat_statements" then some none else none
  | .selectPss, db =>
      if db.preloadPss && db.exts.contains "pg_stat_statements" then some none else none
  | .createUser, db =>
      if db.roleMonitor then none else some (some { db with roleMonitor := true })
  | .grantConnect, db =>
      if db.roleMonitor then some (some { db with privDb := true }) else none
  | .grantUsage, db =>
      if db.roleMonitor && db.schemaDemo then some (some { db with privSchema := true }) else none
  | .alterUserSp, db => if db.roleMonitor then some (some db) else none
  | .createFuncPss, db =>
      if db.schemaDemo then some (some { db with funcPss := true }) else none
  | .grantExecFunc, db =>
      if db.funcPss && db.roleMonitor then some (some { db with privFunc := true }) else none
  | .selectPssFunc, db =>
      if db.funcPss && db.preloadPss && db.exts.contains "pg_stat_statements" then
        some none else none
  | .revokeFunc, db =>
      if db.schemaDemo && db.funcPss && db.roleMonitor then
        some (some { db with privFunc := false }) else none
  | .revokeSchema, db =>
      if db.schemaDemo && db.roleMonitor then
        some (some { db with privSchema := false }) else none
  | .revokeDb, db =>
      if db.roleMonitor then some (some { db with privDb := false }) else none
  | .dropSchemaDemo, db =>
      if db.schemaDemo then
        some (some { db with schemaDemo := false, addrTable := false, btreeIdx := false,
                             ginIdx := false, funcPss := false, privSchema := false,
                             privFunc := false })
      else some (some db)
  | .dropRoleMonitor, db =>
      if !db.roleMonitor then some (some db)
      else if db.privDb || db.privSchema || db.privFunc then none
      else some (some { db with roleMonitor := false })
  | .dropExtension n, db =>
      if (n == "pg_trgm" && db.ginIdx) || (n == "pg_stat_statements" && db.funcPss) then none
      else some (some { db with exts := db.exts.filter (fun x => !(x == n)) })

/-- A psycopg2 connection: `txnOpen` = a transaction has been started by some
statement and not yet resolved; `pend` = the uncommitted writes of the open
transaction (`none` if it made none); `aborted` = the transaction failed and
further statements are refused until rollback. -/
structure Conn where
  txnOpen : Bool
  pend : Option DB
  aborted : Bool
  deriving DecidableEq, Repr

/-- A freshly resolved connection (as after `commit`/`rollback`). -/
def freshConn : Conn := ⟨false, none, false⟩

/-- The database state a connection currently sees: its uncommitted writes if
any, else the shared committed state (READ COMMITTED). -/
def view (db : DB) (c : Conn) : DB := c.pend.getD db

/-- Execute one statement on the primary connection.  Emits the statement
event, opens a transaction, applies writes to the working state; a failing
statement (or a statement inside an already-aborted transaction) raises and
marks the transaction aborted. -/
def exec1 (db : DB) (c : Conn) (s : Sql) : List Event × Conn × Option Sql :=
  if c.aborted then ([.sql s], { c with txnOpen := true }, some s)
  else
    match applySql s (view db c) with
    | none => ([.sql s], { c with txnOpen := true, aborted := true }, some s)
    | some none => ([.sql s], { c with txnOpen := true, aborted := false }, none)
    | some (some d) => ([.sql s], ⟨true, some d, false⟩, none)

/-- Execute one statement with an environment-injected fault: the database
command executor is an external collaborator, so any statement may also fail
for reasons outside the modelled state (I/O error, permissions).  With
`force = false` this is exactly `exec1`. -/
def exec1F (force : Bool) (db : DB) (c : Conn) (s : Sql) : List Event × Conn × Option Sql :=
  if force then ([.sql s], { c with txnOpen := true, aborted := true }, some s)
  else exec1 db c s

/-- Execute a straight-line sequence of statements, stopping at the first
exception (no statement of the sequence is individually guarded). -/
def execSeq (db : DB) (c : Conn) : List Sql → List Event × Conn × Option Sql
  | [] => ([], c, none)
  | s :: rest =>
    match exec1 db c s with
    | (t, c1, some e) => (t, c1, some e)
    | (t, c1, none) =>
      match execSeq db c1 rest with
      | (t2, c2, r) => (t ++ t2, c2, r)

/-- Execute one statement on the secondary (unprivileged) session; identical
transaction semantics, but events are tagged `usql`. -/
def uexec (db : DB) (u : Conn) (s : Sql) : List Event × Conn × Option Sql :=
  if u.aborted then ([.usql s], { u with txnOpen := true }, some s)
  else
    match applySql s (view db u) with
    | none => ([.usql s], { u with txnOpen := true, aborted := true }, some s)
    | some none => ([.usql s], { u with txnOpen := true, aborted := false }, none)
    | some (some d) => ([.usql s], ⟨true, some d, false⟩, none)

/-- Execute a statement in autocommit mode (`conn.autocommit = True` around
`analyze`): psycopg2 refuses to toggle autocommit inside an open
transaction; the statement itself runs outside any transaction (the script
only ever runs the effect-free `analyze` this way). -/
def autoExec (db : DB) (c : Conn) (s : Sql) : List Event × Conn × Option Sql :=
  if c.txnOpen then ([], c, some s)
  else
    match applySql s db with
    | none => ([.sql s], c, some s)
    | some _ => ([.sql s], c, none)

/-- Result of a lifecycle step that owns the primary session: trace, shared
committed database state, primary connection, and the raised exception if
any (identified by the statement that raised it). -/
structure PhaseOut where
  tr : List Event
  db : DB
  c : Conn
  err : Option Sql
  deriving DecidableEq, Repr

/-- Sequential composition of lifecycle steps: the second runs only if the
first did not raise; traces concatenate. -/
def andThen (p : PhaseOut) (f : DB → Conn → PhaseOut) : PhaseOut :=
  match p with
  | ⟨t, db1, c1, some e⟩ => ⟨t, db1, c1, some e⟩
  | ⟨t, db1, c1, none⟩ =>
    match f db1 c1 with
    | ⟨t2, db2, c2, r⟩ => ⟨t ++ t2, db2, c2, r⟩

/-! ## The script's functions, translated -/

/-- `check_preload_library(conn, 'pg_stat_statements')`: queries
`pg_settings` and returns whether the library is in
`shared_preload_libraries`.  Note: no commit or rollback — the SELECT's
transaction is left open. -/
def check_preload_library (db : DB) (c : Conn) : List Event × Conn × Option Sql × Bool :=
  match exec1 db c .selectPreload with
  | (t, c1, some e) => (t, c1, some e, false)
  | (t, c1, none) => (t, c1, none, (view db c1).preloadPss)

/-- `check_existing_extensions(conn)`: populates the `EXTENSIONS` registry
from `pg_catalog.pg_extension`, then rolls back. -/
def check_existing_extensions (db : DB) (c : Conn) :
    List Event × Conn × Option Sql × List String :=
  match exec1 db c .selectPgExtension with
  | (t, c1, some e) => (t, c1, some e, [])
  | (t, c1, none) => (t ++ [.rollback], freshConn, none, (view db c1).exts)

/-- `validate_demo(conn)`: preload check; on success populates the registry
and returns `true`, else logs an error and returns `false` (registry left
empty). -/
def validate_demo (db : DB) (c : Conn) :
    List Event × Conn × Option Sql × Bool × List String :=
  match check_preload_library db c with
  | (t, c1, some e, _) => (t, c1, some e, false, [])
  | (t, c1, none, true) =>
    match check_existing_extensions db c1 with
    | (t2, c2, some e, _) => (t ++ t2, c2, some e, false, [])
    | (t2, c2, none, reg) => (t ++ t2, c2, none, true, reg)
  | (t, c1, none, false) => (t, c1, none, false, [])

/-- The statements `setup_demo` issues, given the registry: create the
schema, create each of the two extensions only if absent from the registry,
set the search path. -/
def setupStmts (reg : List String) : List Sql :=
  [.createSchemaDemo]
  ++ (if reg.contains "pg_trgm" then [] else [.createExtension "pg_trgm"])
  ++ (if reg.contains "pg_stat_statements" then [] else [.createExtension "pg_stat_statements"])
  ++ [.setSearchPath]

/-- `setup_demo(conn)`: one `try` block around all statements; any exception
triggers `conn.rollback()` and re-raise, otherwise the `else` branch issues
a single `conn.commit()`. -/
def setup_demo (reg : List String) (db : DB) (c : Conn) : PhaseOut :=
  match execSeq db c (setupStmts reg) with
  | (t, _, some e) => ⟨t ++ [.rollback], db, freshConn, some e⟩
  | (t, c1, none) => ⟨t ++ [.commit], view db c1, freshConn, none⟩

/-- One best-effort teardown step (`try: execute(...) except Exception:
conn.rollback()`): the statement's failure is swallowed and the whole
transaction rolled back. -/
def bestEffortF (force : Bool) (db : DB) (c : Conn) (s : Sql) : List Event × Conn :=
  match exec1F force db c s with
  | (t, c1, none) => (t, c1)
  | (t, _, some _) => (t ++ [.rollback], freshConn)

/-- The three individually guarded revoke statements at the start of
`teardown_demo`, with an injectable fault per step (the executor is
external, so each revoke may also fail for external reasons). -/
def revokePhaseF (f1 f2 f3 : Bool) (db : DB) (c : Conn) : List Event × Conn :=
  match bestEffortF f1 db c .revokeFunc with
  | (t1, c1) =>
    match bestEffortF f2 db c1 .revokeSchema with
    | (t2, c2) =>
      match bestEffortF f3 db c2 .revokeDb with
      | (t3, c3) => (t1 ++ t2 ++ t3, c3)

/-- Is this one of the two demo extension names the teardown query selects? -/
def isDemoExt (e : String) : Bool := e == "pg_trgm" || e == "pg_stat_statements"

/-- The teardown loop over the fetched extension rows: for each name not in
the `EXTENSIONS` registry, issue `drop extension if exists`; these drops are
not individually guarded, so a failure propagates. -/
def extDropLoop (reg : List String) (db : DB) (c : Conn) :
    List String → List Event × Conn × Option Sql
  | [] => ([], c, none)
  | n :: rest =>
    if reg.contains n then extDropLoop reg db c rest
    else
      match exec1 db c (.dropExtension n) with
      | (t, c1, some e) => (t, c1, some e)
      | (t, c1, none) =>
        match extDropLoop reg db c1 rest with
        | (t2, c2, r) => (t ++ t2, c2, r)

/-- `teardown_demo(conn)`: three best-effort revokes, then the unguarded
`drop schema if exists ... cascade`, `drop role if exists`, `commit`, the
query for installed demo extensions, the drop loop over those not in the
registry, and a final `commit`. -/
def teardown_demo (reg : List String) (db : DB) (c : Conn) : PhaseOut :=
  match revokePhaseF false false false db c with
  | (t0, c0) =>
    match exec1 db c0 .dropSchemaDemo with
    | (t1, c1, some e) => ⟨t0 ++ t1, db, c1, some e⟩
    | (t1, c1, none) =>
      match exec1 db c1 .dropRoleMonitor with
      | (t2, c2, some e) => ⟨t0 ++ t1 ++ t2, db, c2, some e⟩
      | (t2, c2, none) =>
        match exec1 (view db c2) freshConn .selectDemoExts with
        | (t3, c3, some e) => ⟨t0 ++ t1 ++ t2 ++ [.commit] ++ t3, view db c2, c3, some e⟩
        | (t3, c3, none) =>
          match extDropLoop reg (view db c2) c3
              ((view (view db c2) c3).exts.filter isDemoExt) with
          | (t4, c4, some e) =>
            ⟨t0 ++ t1 ++ t2 ++ [.commit] ++ t3 ++ t4, view db c2, c4, some e⟩
          | (t4, c4, none) =>
            ⟨t0 ++ t1 ++ t2 ++ [.commit] ++ t3 ++ t4 ++ [.commit],
             view (view db c2) c4, freshConn, none⟩

/-! ## Demo phase A: pg_trgm -/

/-- `create_addr_table(conn)`: create the table, then commit. -/
def create_addr_table (db : DB) (c : Conn) : PhaseOut :=
  match exec1 db c .createAddrTable with
  | (t, c1, some e) => ⟨t, db, c1, some e⟩
  | (t, c1, none) => ⟨t ++ [.commit], view db c1, freshConn, none⟩

/-- `copy_addr_data(conn, data)`: COPY one batch, then commit. -/
def copy_addr_data (db : DB) (c : Conn) : PhaseOut :=
  match exec1 db c .copyAddr with
  | (t, c1, some e) => ⟨t, db, c1, some e⟩
  | (t, c1, none) => ⟨t ++ [.commit], view db c1, freshConn, none⟩

/-- The `while curr_copy < max_copy` loop of `load_addr_table`: `k` batches. -/
def load_loop (db : DB) (c : Conn) : Nat → List Event × DB × Conn × Option Sql
  | 0 => ([], db, c, none)
  | k + 1 =>
    match copy_addr_data db c with
    | ⟨t, db1, c1, some e⟩ => (t, db1, c1, some e)
    | ⟨t, db1, c1, none⟩ =>
      match load_loop db1 c1 k with
      | (t2, db2, c2, r) => (t ++ t2, db2, c2, r)

/-- `load_addr_table(conn)`: ten COPY batches then a final commit. -/
def load_addr_table (db : DB) (c : Conn) : PhaseOut :=
  match load_loop db c 10 with
  | (t, db1, c1, some e) => ⟨t, db1, c1, some e⟩
  | (t, db1, c1, none) => ⟨t ++ [.commit], view db1 c1, freshConn, none⟩

/-- `init_pg_trgm(conn)`: table creation and load inside `try` (rollback and
re-raise on exception), `else` branch runs `analyze` in autocommit mode. -/
def init_pg_trgm (db : DB) (c : Conn) : PhaseOut :=
  match create_addr_table db c with
  | ⟨t, db1, _, some e⟩ => ⟨t ++ [.rollback], db1, freshConn, some e⟩
  | ⟨t, db1, c1, none⟩ =>
    match load_addr_table db1 c1 with
    | ⟨t2, db2, _, some e⟩ => ⟨t ++ t2 ++ [.rollback], db2, freshConn, some e⟩
    | ⟨t2, db2, c2, none⟩ =>
      match autoExec db2 c2 .analyzeAddr with
      | (t3, c3, r) => ⟨t ++ t2 ++ t3, db2, c3, r⟩

/-- `create_addr_btree_index(conn)`: create index, commit, autocommit
`analyze`. -/
def create_addr_btree_index (db : DB) (c : Conn) : PhaseOut :=
  match exec1 db c .createBtreeIdx with
  | (t, c1, some e) => ⟨t, db, c1, some e⟩
  | (t, c1, none) =>
    match autoExec (view db c1) freshConn .analyzeAddr with
    | (t2, c2, r) => ⟨t ++ [.commit] ++ t2, view db c1, c2, r⟩

/-- `test_addr_btree_index(conn)`: two EXPLAIN ANALYZE queries, then
rollback. -/
def test_addr_btree_index (db : DB) (c : Conn) : PhaseOut :=
  match exec1 db c .explainAddr with
  | (t, c1, some e) => ⟨t, db, c1, some e⟩
  | (t, c1, none) =>
    match exec1 db c1 .explainAddr with
    | (t2, c2, some e) => ⟨t ++ t2, db, c2, some e⟩
    | (t2, _, none) => ⟨t ++ t2 ++ [.rollback], db, freshConn, none⟩

/-- `create_addr_gin_index(conn)`: create the GIN index (requires the
pg_trgm extension), commit, autocommit `analyze`. -/
def create_addr_gin_index (db : DB) (c : Conn) : PhaseOut :=
  match exec1 db c .createGinIdx with
  | (t, c1, some e) => ⟨t, db, c1, some e⟩
  | (t, c1, none) =>
    match autoExec (view db c1) freshConn .analyzeAddr with
    | (t2, c2, r) => ⟨t ++ [.commit] ++ t2, view db c1, c2, r⟩

/-- `test_addr_gin_index(conn)`: two EXPLAIN ANALYZE queries, then
rollback. -/
def test_addr_gin_index (db : DB) (c : Conn) : PhaseOut :=
  match exec1 db c .explainAddr with
  | (t, c1, some e) => ⟨t, db, c1, some e⟩
  | (t, c1, none) =>
    match exec1 db c1 .explainAddr with
    | (t2, c2, some e) => ⟨t ++ t2, db, c2, some e⟩
    | (t2, _, none) => ⟨t ++ t2 ++ [.rollback], db, freshConn, none⟩

/-- `demo_pg_trgm(conn, init_demo)`: optional data initialisation, then the
btree and GIN index sub-demos; no exception is caught inside the phase. -/
def demo_pg_trgm (init : Bool) (db : DB) (c : Conn) : PhaseOut :=
  andThen (andThen (andThen (andThen
    (if init then init_pg_trgm db c else ⟨[], db, c, none⟩)
    create_addr_btree_index) test_addr_btree_index)
    create_addr_gin_index) test_addr_gin_index

/-! ## Demo phase B: pg_stat_statements -/

/-- The nine demo queries of `demo_pss_table`: QUERY1 five times, QUERY2
once, QUERY3 three times. -/
def pssQueries : List Sql :=
  List.replicate 5 Sql.queryAddr ++ [Sql.queryAddr] ++ List.replicate 3 Sql.queryAddr

/-- `demo_pss_table(conn)`: reset the statistics and commit, run the demo
queries, read `pg_stat_statements`, then rollback. -/
def demo_pss_table (db : DB) (c : Conn) : PhaseOut :=
  match exec1 db c .resetPss with
  | (t, c1, some e) => ⟨t, db, c1, some e⟩
  | (t, c1, none) =>
    match execSeq (view db c1) freshConn pssQueries with
    | (t2, c2, some e) => ⟨t ++ [.commit] ++ t2, view db c1, c2, some e⟩
    | (t2, c2, none) =>
      match exec1 (view db c1) c2 .selectPss with
      | (t3, c3, some e) => ⟨t ++ [.commit] ++ t2 ++ t3, view db c1, c3, some e⟩
      | (t3, _, none) =>
        ⟨t ++ [.commit] ++ t2 ++ t3 ++ [.rollback], view db c1, freshConn, none⟩

/-- `create_unpriveleged_user(conn, ...)` (name as in the source): create
the `__monitor` role, grant connect/usage, set its search path, commit. -/
def create_unpriveleged_user (db : DB) (c : Conn) : PhaseOut :=
  match execSeq db c [.createUser, .grantConnect, .grantUsage, .alterUserSp] with
  | (t, c1, some e) => ⟨t, db, c1, some e⟩
  | (t, c1, none) => ⟨t ++ [.commit], view db c1, freshConn, none⟩

/-- `demo_unprivileged_user(conn, init_demo)`: optionally create the role;
open a second connection as `__monitor`; inside `try`, read the masked
statistics on it, create the security-definer function and grant it on the
primary connection (commit), then read again via the function on the
secondary connection; the `finally` block unconditionally rolls back and
closes the secondary connection; on success the primary session is rolled
back afterwards. -/
def demo_unprivileged_user (init : Bool) (db : DB) (c : Conn) : PhaseOut :=
  match (if init then create_unpriveleged_user db c else ⟨[], db, c, none⟩ : PhaseOut) with
  | ⟨t0, db0, c0, some e⟩ => ⟨t0, db0, c0, some e⟩
  | ⟨t0, db0, c0, none⟩ =>
    match uexec db0 freshConn .selectPss with
    | (tu1, _, some e) =>
      ⟨t0 ++ [.uconnect] ++ tu1 ++ [.urollback, .uclose], db0, c0, some e⟩
    | (tu1, u1, none) =>
      match exec1 db0 c0 .createFuncPss with
      | (t1, c1, some e) =>
        ⟨t0 ++ [.uconnect] ++ tu1 ++ t1 ++ [.urollback, .uclose], db0, c1, some e⟩
      | (t1, c1, none) =>
        match exec1 db0 c1 .grantExecFunc with
        | (t2, c2, some e) =>
          ⟨t0 ++ [.uconnect] ++ tu1 ++ t1 ++ t2 ++ [.urollback, .uclose], db0, c2, some e⟩
        | (t2, c2, none) =>
          match uexec (view db0 c2) u1 .selectCurrentUser with
          | (tu2, _, some e) =>
            ⟨t0 ++ [.uconnect] ++ tu1 ++ t1 ++ t2 ++ [.commit] ++ tu2 ++ [.urollback, .uclose],
             view db0 c2, freshConn, some e⟩
          | (tu2, u2, none) =>
            match uexec (view db0 c2) u2 .selectPssFunc with
            | (tu3, _, some e) =>
              ⟨t0 ++ [.uconnect] ++ tu1 ++ t1 ++ t2 ++ [.commit] ++ tu2 ++ tu3
                 ++ [.urollback, .uclose], view db0 c2, freshConn, some e⟩
            | (tu3, _, none) =>
              ⟨t0 ++ [.uconnect] ++ tu1 ++ t1 ++ t2 ++ [.commit] ++ tu2 ++ tu3
                 ++ [.urollback, .uclose] ++ [.rollback], view db0 c2, freshConn, none⟩

/-- `demo_pg_stat_statements(conn, init_demo)`: the statistics-table
sub-demo followed by the unprivileged-user sub-demo. -/
def demo_pg_stat_statements (init : Bool) (db : DB) (c : Conn) : PhaseOut :=
  andThen (demo_pss_table db c) (demo_unprivileged_user init)

/-! ## The orchestrator -/

/-- State of a run when control reaches the `finally` block of `run_demo`:
trace so far, committed database, primary connection, pending exception,
and the `EXTENSIONS` registry as populated so far. -/
structure BodyOut where
  tr : List Event
  db : DB
  c : Conn
  err : Option Sql
  reg : List String
  deriving DecidableEq, Repr

/-- The guarded body of `run_demo`: `if not block_demo and
validate_demo(conn): [setup_demo;] demo_pg_trgm; demo_pg_stat_statements`.
With `block` set, validation never runs and the registry stays empty. -/
def run_body (init block : Bool) (db : DB) : BodyOut :=
  if block then ⟨[], db, freshConn, none, []⟩
  else
    match validate_demo db freshConn with
    | (t, c1, some e, _, reg) => ⟨t, db, c1, some e, reg⟩
    | (t, c1, none, false, reg) => ⟨t, db, c1, none, reg⟩
    | (t, c1, none, true, reg) =>
      match andThen (andThen
          (if init then setup_demo reg db c1 else ⟨[], db, c1, none⟩)
          (demo_pg_trgm init)) (demo_pg_stat_statements init) with
      | ⟨t2, db2, c2, r⟩ => ⟨t ++ t2, db2, c2, r, reg⟩

/-- Observable outcome of a whole run: trace, final committed database
state, and the exception escaping to the caller, if any. -/
structure RunOut where
  tr : List Event
  db : DB
  err : Option Sql
  deriving DecidableEq, Repr

/-- `run_demo(db_url, init_demo, teardown, block_demo)`: the guarded body,
a `finally` block running `teardown_demo` when `teardown or block_demo`
(an exception raised by teardown replaces the body's), and the connection
context manager's exit (commit on success, rollback when an exception is
propagating). -/
def run_demo (init td block : Bool) (db : DB) : RunOut :=
  let b := run_body init block db
  if td || block then
    match teardown_demo b.reg b.db b.c with
    | ⟨t2, db2, _, some e⟩ => ⟨b.tr ++ t2 ++ [.rollback], db2, some e⟩
    | ⟨t2, db2, c2, none⟩ =>
      match b.err with
      | some e => ⟨b.tr ++ t2 ++ [.rollback], db2, some e⟩
      | none => ⟨b.tr ++ t2 ++ [.commit], view db2 c2, none⟩
  else
    match b.err with
    | some e => ⟨b.tr ++ [.rollback], b.db, some e⟩
    | none => ⟨b.tr ++ [.commit], view b.db b.c, none⟩

/-! ## Statement classification and auxiliary notions used by the claims -/

/-- Statements issued by the validation phase. -/
def isValidationSql : Sql → Bool
  | .selectPreload => true
  | .selectPgExtension => true
  | _ => false

/-- Statements issued by the setup phase (all object-creating or
session-configuring). -/
def isSetupSql : Sql → Bool
  | .createSchemaDemo => true
  | .createExtension _ => true
  | .setSearchPath => true
  | _ => false

/-- Statements issued by the teardown phase. -/
def isTeardownSql : Sql → Bool
  | .revokeFunc => true
  | .revokeSchema => true
  | .revokeDb => true
  | .dropSchemaDemo => true
  | .dropRoleMonitor => true
  | .selectDemoExts => true
  | .dropExtension _ => true
  | _ => false

/-- Statements issued by the two demo phases (everything that is neither
validation, setup, nor teardown). -/
def isDemoSql (s : Sql) : Bool :=
  !(isValidationSql s || isSetupSql s || isTeardownSql s)

/-- The SQL statements of a trace, in order (primary session only). -/
def sqlEvents : List Event → List Sql
  | [] => []
  | .sql s :: rest => s :: sqlEvents rest
  | _ :: rest => sqlEvents rest

/-- True of events that belong to the primary session only (no secondary
session activity). -/
def isPrimEvent : Event → Bool
  | .uconnect => false
  | .usql _ => false
  | .urollback => false
  | .uclose => false
  | _ => true

/-- Scanning a trace from the end: the most recent secondary-session event,
if any, is the close of that session (so no secondary-session activity
happens after its final close).  Intended to be applied to a reversed
trace. -/
def lastUResolved : List Event → Bool
  | [] => true
  | .uclose :: _ => true
  | .usql _ :: _ => false
  | .uconnect :: _ => false
  | .urollback :: _ => false
  | _ :: rest => lastUResolved rest

/-- Well-formedness of a database state: the dependency invariants
PostgreSQL itself maintains (a table lives in its schema, an index on its
table, a GIN trigram index needs pg_trgm, privileges need their object and
the role, ...).  Every state reachable by actual PostgreSQL satisfies
this. -/
def WFb (db : DB) : Bool :=
  (!db.addrTable || db.schemaDemo) &&
  (!db.btreeIdx || db.addrTable) &&
  (!db.ginIdx || (db.addrTable && db.exts.contains "pg_trgm")) &&
  (!db.funcPss || db.schemaDemo) &&
  (!db.privSchema || (db.schemaDemo && db.roleMonitor)) &&
  (!db.privFunc || (db.funcPss && db.roleMonitor)) &&
  (!db.privDb || db.roleMonitor)

/-- Keep an extension during teardown: it is kept unless it is one of the
two demo extensions and absent from the registry. -/
def keepExt (reg : List String) (x : String) : Bool :=
  !(isDemoExt x && !reg.contains x)

/-- The database state teardown leaves behind: demo objects and role gone,
privileges gone, and exactly the extensions the registry protects (plus all
non-demo extensions) still installed. -/
def tearDB (reg : List String) (db : DB) : DB :=
  ⟨db.preloadPss, false, false, false, false, false, false, false, false, false,
   db.searchPathDemo, db.exts.filter (keepExt reg)⟩

/-- Replace only the installed-extensions component of a state. -/
def setExts (db : DB) (l : List String) : DB := { db with exts := l }

/-! ### Concrete database states used as witnesses and counterexamples -/

/-- A server without `pg_stat_statements` in `shared_preload_libraries` and
nothing else installed. -/
def dbNoPreload : DB :=
  ⟨false, false, false, false, false, false, false, false, false, false, false, []⟩

/-- A healthy pristine server: preload present, no demo objects, no
extensions installed yet. -/
def dbClean : DB :=
  ⟨true, false, false, false, false, false, false, false, false, false, false, []⟩

/-- A server where the `pg_trgm` extension pre-exists before any run. -/
def dbPreTrgm : DB :=
  ⟨true, false, false, false, false, false, false, false, false, false, false, ["pg_trgm"]⟩

/-- A server where the demo schema already exists (left over from a
`--no-teardown` run). -/
def dbSchemaLeft : DB :=
  ⟨true, true, false, false, false, false, false, false, false, false, false,
   ["pg_trgm", "pg_stat_statements"]⟩

/-- A mid-demo state: schema, table, function and role all present, with
every privilege granted to the restricted role. -/
def dbFull : DB :=
  ⟨true, true, true, false, false, true, true, true, true, true, false,
   ["pg_trgm", "pg_stat_statements"]⟩

/-- A state where setup has run but the addr table was not yet created
(used to exercise the pg_stat_statements phase directly). -/
def dbWithAddr : DB :=
  ⟨true, true, true, false, false, false, false, false, false, false, false,
   ["pg_trgm", "pg_stat_statements"]⟩

/-! ## Basic lemmas about the execution machinery -/

lemma exec1_fst (db : DB) (c : Conn) (s : Sql) : (exec1 db c s).1 = [Event.sql s] := by
  unfold exec1
  split
  · rfl
  · split <;> rfl

lemma exec1F_fst (f : Bool) (db : DB) (c : Conn) (s : Sql) :
    (exec1F f db c s).1 = [Event.sql s] := by
  unfold exec1F
  split
  · rfl
  · exact exec1_fst db c s

lemma uexec_fst (db : DB) (u : Conn) (s : Sql) : (uexec db u s).1 = [Event.usql s] := by
  unfold uexec
  split
  · rfl
  · split <;> rfl

lemma exec1_ok_aborted {db : DB} {c : Conn} {s : Sql} {t : List Event} {c1 : Conn}
    (h : exec1 db c s = (t, c1, none)) : c1.aborted = false := by
  unfold exec1 at h
  split at h
  · simp at h
  · split at h
    · simp at h
    · simp at h
      obtain ⟨h1, h2⟩ := h
      subst h2
      rfl
    · simp at h
      obtain ⟨h1, h2⟩ := h
      subst h2
      rfl

lemma exec1_err_eq {db : DB} {c : Conn} {s : Sql} {t : List Event} {c1 : Conn} {e : Sql}
    (h : exec1 db c s = (t, c1, some e)) : e = s := by
  unfold exec1 at h
  split at h
  · simp_all
  · split at h <;> simp_all

lemma bestEffortF_fst (f : Bool) (db : DB) (c : Conn) (s : Sql) :
    (bestEffortF f db c s).1 = [Event.sql s] ∨
    (bestEffortF f db c s).1 = [Event.sql s, Event.rollback] := by
  unfold bestEffortF
  split <;> rename_i t c1 heq
  · left
    have h1 := exec1F_fst f db c s
    rw [heq] at h1
    simpa using h1
  · right
    rename_i e
    have h1 := exec1F_fst f db c s
    rw [heq] at h1
    simp at h1
    simp [h1]

lemma bestEffortF_aborted (f : Bool) (db : DB) (c : Conn) (s : Sql) :
    (bestEffortF f db c s).2.aborted = false := by
  unfold bestEffortF
  split <;> rename_i heq
  · exact exec1_ok_aborted (by
      unfold exec1F at heq
      split at heq
      · simp at heq
      · exact heq)
  · rfl

lemma execSeq_mem {db : DB} {l : List Sql} :
    ∀ {c : Conn} {e : Event}, e ∈ (execSeq db c l).1 → ∃ s ∈ l, e = Event.sql s := by
  induction l with
  | nil => intro c e h; simp [execSeq] at h
  | cons s rest ih =>
    intro c e h
    unfold execSeq at h
    split at h <;> rename_i t c1 heq
    · have h1 := exec1_fst db c s
      rw [heq] at h1
      simp at h1
      subst h1
      simp at h
      exact ⟨s, by simp, h⟩
    · split at h <;> rename_i t2 c2 r heq2
      have h1 := exec1_fst db c s
      rw [heq] at h1
      simp at h1
      subst h1
      simp at h
      rcases h with h | h
      · exact ⟨s, by simp, h⟩
      · have h2 : e ∈ (execSeq db c1 rest).1 := by rw [heq2]; exact h
        obtain ⟨s', hs', he⟩ := ih h2
        exact ⟨s', by simp [hs'], he⟩

lemma extDropLoop_mem {reg : List String} {db : DB} :
    ∀ {ns : List String} {c : Conn} {e : Event}, e ∈ (extDropLoop reg db c ns).1 →
      ∃ n, e = Event.sql (Sql.dropExtension n) := by
  intro ns
  induction ns with
  | nil => intro c e h; simp [extDropLoop] at h
  | cons n rest ih =>
    intro c e h
    unfold extDropLoop at h
    split at h
    · exact ih h
    · split at h <;> rename_i t c1 heq
      · have h1 := exec1_fst db c (.dropExtension n)
        rw [heq] at h1
        simp at h1
        subst h1
        simp at h
        exact ⟨n, h⟩
      · split at h <;> rename_i t2 c2 r heq2
        have h1 := exec1_fst db c (.dropExtension n)
        rw [heq] at h1
        simp at h1
        subst h1
        simp at h
        rcases h with h | h
        · exact ⟨n, h⟩
        · exact ih (by rw [heq2]; exact h)

lemma extDropLoop_err {reg : List String} {db : DB} :
    ∀ {ns : List String} {c : Conn} {e : Sql}, (extDropLoop reg db c ns).2.2 = some e →
      ∃ n, e = Sql.dropExtension n := by
  intro ns
  induction ns with
  | nil => intro c e h; simp [extDropLoop] at h
  | cons n rest ih =>
    intro c e h
    unfold extDropLoop at h
    split at h
    · exact ih h
    · split at h <;> rename_i t c1 heq
      · simp at h
        subst h
        exact ⟨n, (exec1_err_eq heq)⟩
      · split at h <;> rename_i t2 c2 r heq2
        simp at h
        exact ih (by rw [heq2]; exact h)

lemma sqlEvents_append (a b : List Event) :
    sqlEvents (a ++ b) = sqlEvents a ++ sqlEvents b := by
  induction a with
  | nil => simp [sqlEvents]
  | cons e rest ih => cases e <;> simp [sqlEvents, ih]

lemma bestEffortF_mem {f : Bool} {db : DB} {c : Conn} {s : Sql} {e : Event}
    (h : e ∈ (bestEffortF f db c s).1) : e = Event.sql s ∨ e = Event.rollback := by
  rcases bestEffortF_fst f db c s with hf | hf <;> rw [hf] at h <;> simp at h <;> tauto

lemma bestEffortF_sqlEvents (f : Bool) (db : DB) (c : Conn) (s : Sql) :
    sqlEvents (bestEffortF f db c s).1 = [s] := by
  rcases bestEffortF_fst f db c s with h | h <;> rw [h] <;> rfl

lemma andThen_mem {p : PhaseOut} {f : DB → Conn → PhaseOut} {e : Event}
    (h : e ∈ (andThen p f).tr) : e ∈ p.tr ∨ e ∈ (f p.db p.c).tr := by
  unfold andThen at h
  split at h
  · exact Or.inl h
  · rename_i t db1 c1 heq
    split at h
    rename_i t2 db2 c2 r heq2
    simp at h
    rcases h with h | h
    · exact Or.inl h
    · refine Or.inr ?_
      rw [heq2]
      exact h

lemma revokePhaseF_mem {f1 f2 f3 : Bool} {db : DB} {c : Conn} {e : Event}
    (h : e ∈ (revokePhaseF f1 f2 f3 db c).1) :
    e = Event.sql Sql.revokeFunc ∨ e = Event.sql Sql.revokeSchema ∨
    e = Event.sql Sql.revokeDb ∨ e = Event.rollback := by
  unfold revokePhaseF at h
  split at h; rename_i t1 c1 heq1
  split at h; rename_i t2 c2 heq2
  split at h; rename_i t3 c3 heq3
  simp at h
  rcases h with h | h | h
  · rcases bestEffortF_mem (show e ∈ (bestEffortF f1 db c .revokeFunc).1 by
      rw [heq1]; exact h) with h' | h' <;> tauto
  · rcases bestEffortF_mem (show e ∈ (bestEffortF f2 db c1 .revokeSchema).1 by
      rw [heq2]; exact h) with h' | h' <;> tauto
  · rcases bestEffortF_mem (show e ∈ (bestEffortF f3 db c2 .revokeDb).1 by
      rw [heq3]; exact h) with h' | h' <;> tauto

lemma revokePhaseF_sqlEvents (f1 f2 f3 : Bool) (db : DB) (c : Conn) :
    sqlEvents (revokePhaseF f1 f2 f3 db c).1 = [.revokeFunc, .revokeSchema, .revokeDb] := by
  unfold revokePhaseF
  split; rename_i t1 c1 heq1
  split; rename_i t2 c2 heq2
  split; rename_i t3 c3 heq3
  have h1 := bestEffortF_sqlEvents f1 db c .revokeFunc
  have h2 := bestEffortF_sqlEvents f2 db c1 .revokeSchema
  have h3 := bestEffortF_sqlEvents f3 db c2 .revokeDb
  rw [heq1] at h1; rw [heq2] at h2; rw [heq3] at h3
  simp [sqlEvents_append, h1, h2, h3]

lemma teardown_demo_mem {reg : List String} {db : DB} {c : Conn} {e : Event}
    (h : e ∈ (teardown_demo reg db c).tr) :
    (∃ s, e = Event.sql s ∧ isTeardownSql s = true) ∨
    e = Event.commit ∨ e = Event.rollback := by
  have hrp : ∀ {t0 : List Event} {c0 : Conn},
      revokePhaseF false false false db c = (t0, c0) → e ∈ t0 →
      (∃ s, e = Event.sql s ∧ isTeardownSql s = true) ∨
      e = Event.commit ∨ e = Event.rollback := by
    intro t0 c0 heq0 hm
    rcases revokePhaseF_mem (show e ∈ (revokePhaseF false false false db c).1 by
      rw [heq0]; exact hm) with h' | h' | h' | h' <;> subst h'
    · exact Or.inl ⟨_, rfl, rfl⟩
    · exact Or.inl ⟨_, rfl, rfl⟩
    · exact Or.inl ⟨_, rfl, rfl⟩
    · exact Or.inr (Or.inr rfl)
  have hone : ∀ {t : List Event} {c' c1 : Conn} {r : Option Sql} {s : Sql} {d : DB},
      exec1 d c' s = (t, c1, r) → e ∈ t → e = Event.sql s := by
    intro t c' c1 r s d heq hm
    have h1 := exec1_fst d c' s
    rw [heq] at h1
    simp at h1
    subst h1
    simpa using hm
  have hloop : ∀ {ns : List String} {t : List Event} {c' c1 : Conn} {r : Option Sql} {d : DB},
      extDropLoop reg d c' ns = (t, c1, r) → e ∈ t →
      ∃ n, e = Event.sql (Sql.dropExtension n) := by
    intro ns t c' c1 r d heq hm
    exact extDropLoop_mem (show e ∈ (extDropLoop reg d c' ns).1 by rw [heq]; exact hm)
  unfold teardown_demo at h
  split at h; rename_i t0 c0 heq0
  split at h <;> rename_i t1 c1 heq1
  · rename_i e1
    simp at h
    rcases h with h | h
    · exact hrp heq0 h
    · have hx := hone heq1 h; subst hx; exact Or.inl ⟨_, rfl, rfl⟩
  · split at h <;> rename_i t2 c2 heq2
    · rename_i e2
      simp at h
      rcases h with h | h | h
      · exact hrp heq0 h
      · have hx := hone heq1 h; subst hx; exact Or.inl ⟨_, rfl, rfl⟩
      · have hx := hone heq2 h; subst hx; exact Or.inl ⟨_, rfl, rfl⟩
    · split at h <;> rename_i t3 c3 heq3
      · rename_i e3
        simp at h
        rcases h with h | h | h | h | h
        · exact hrp heq0 h
        · have hx := hone heq1 h; subst hx; exact Or.inl ⟨_, rfl, rfl⟩
        · have hx := hone heq2 h; subst hx; exact Or.inl ⟨_, rfl, rfl⟩
        · subst h; exact Or.inr (Or.inl rfl)
        · have hx := hone heq3 h; subst hx; exact Or.inl ⟨_, rfl, rfl⟩
      · split at h <;> rename_i t4 c4 heq4
        · rename_i e4
          simp at h
          rcases h with h | h | h | h | h | h
          · exact hrp heq0 h
          · have hx := hone heq1 h; subst hx; exact Or.inl ⟨_, rfl, rfl⟩
          · have hx := hone heq2 h; subst hx; exact Or.inl ⟨_, rfl, rfl⟩
          · subst h; exact Or.inr (Or.inl rfl)
          · have hx := hone heq3 h; subst hx; exact Or.inl ⟨_, rfl, rfl⟩
          · obtain ⟨n, hn⟩ := hloop heq4 h
            subst hn; exact Or.inl ⟨_, rfl, rfl⟩
        · simp at h
          rcases h with h | h | h | h | h | h | h
          · exact hrp heq0 h
          · have hx := hone heq1 h; subst hx; exact Or.inl ⟨_, rfl, rfl⟩
          · have hx := hone heq2 h; subst hx; exact Or.inl ⟨_, rfl, rfl⟩
          · subst h; exact Or.inr (Or.inl rfl)
          · have hx := hone heq3 h; subst hx; exact Or.inl ⟨_, rfl, rfl⟩
          · obtain ⟨n, hn⟩ := hloop heq4 h
            subst hn; exact Or.inl ⟨_, rfl, rfl⟩
          · subst h; exact Or.inr (Or.inl rfl)

lemma exec1_tr_eq {db : DB} {c : Conn} {s : Sql} {t : List Event} {c1 : Conn} {r : Option Sql}
    (heq : exec1 db c s = (t, c1, r)) : t = [Event.sql s] := by
  have h1 := exec1_fst db c s
  rw [heq] at h1
  simpa using h1

lemma exec1_mem {db : DB} {c : Conn} {s : Sql} {t : List Event} {c1 : Conn} {r : Option Sql}
    (heq : exec1 db c s = (t, c1, r)) {e : Event} (h : e ∈ t) : e = Event.sql s := by
  rw [exec1_tr_eq heq] at h
  simpa using h

lemma uexec_tr_eq {db : DB} {u : Conn} {s : Sql} {t : List Event} {u1 : Conn} {r : Option Sql}
    (heq : uexec db u s = (t, u1, r)) : t = [Event.usql s] := by
  have h1 := uexec_fst db u s
  rw [heq] at h1
  simpa using h1

lemma autoExec_fst (db : DB) (c : Conn) (s : Sql) :
    (autoExec db c s).1 = [] ∨ (autoExec db c s).1 = [Event.sql s] := by
  unfold autoExec
  split
  · exact Or.inl rfl
  · split <;> exact Or.inr rfl

lemma autoExec_mem {db : DB} {c : Conn} {s : Sql} {t : List Event} {c1 : Conn} {r : Option Sql}
    (heq : autoExec db c s = (t, c1, r)) {e : Event} (h : e ∈ t) : e = Event.sql s := by
  rcases autoExec_fst db c s with h1 | h1 <;> rw [heq] at h1 <;> simp at h1 <;> subst h1 <;>
    simpa using h

lemma teardown_count_ds (reg : List String) (db : DB) (c : Conn) :
    (teardown_demo reg db c).tr.count (Event.sql Sql.dropSchemaDemo) = 1 := by
  unfold teardown_demo
  split; rename_i t0 c0 heq0
  have h0 : t0.count (Event.sql Sql.dropSchemaDemo) = 0 := by
    refine List.count_eq_zero.mpr ?_
    intro hm
    rcases revokePhaseF_mem (show Event.sql Sql.dropSchemaDemo ∈
        (revokePhaseF false false false db c).1 by rw [heq0]; exact hm) with h | h | h | h <;>
      simp at h
  split
  next t1 c1 e1 heq1 =>
    have h1 := exec1_tr_eq heq1
    subst h1
    simp [List.count_append, h0]
  next t1 c1 heq1 =>
    have h1 := exec1_tr_eq heq1
    subst h1
    split
    next t2 c2 e2 heq2 =>
      have h2 := exec1_tr_eq heq2
      subst h2
      simp [List.count_append, h0]
    next t2 c2 heq2 =>
      have h2 := exec1_tr_eq heq2
      subst h2
      split
      next t3 c3 e3 heq3 =>
        have h3 := exec1_tr_eq heq3
        subst h3
        simp [List.count_append, h0]
      next t3 c3 heq3 =>
        have h3 := exec1_tr_eq heq3
        subst h3
        split
        next t4 c4 e4 heq4 =>
          have h4 : t4.count (Event.sql Sql.dropSchemaDemo) = 0 := by
            refine List.count_eq_zero.mpr ?_
            intro hm
            have hm' : Event.sql Sql.dropSchemaDemo ∈
                (extDropLoop reg (view db c2) c3
                  ((view (view db c2) c3).exts.filter isDemoExt)).1 := by
              rw [heq4]; exact hm
            obtain ⟨n, hn⟩ := extDropLoop_mem hm'
            simp at hn
          simp [List.count_append, h0, h4]
        next t4 c4 heq4 =>
          have h4 : t4.count (Event.sql Sql.dropSchemaDemo) = 0 := by
            refine List.count_eq_zero.mpr ?_
            intro hm
            have hm' : Event.sql Sql.dropSchemaDemo ∈
                (extDropLoop reg (view db c2) c3
                  ((view (view db c2) c3).exts.filter isDemoExt)).1 := by
              rw [heq4]; exact hm
            obtain ⟨n, hn⟩ := extDropLoop_mem hm'
            simp at hn
          simp [List.count_append, h0, h4]

/-! ### No namespace-drop statement is issued outside teardown -/

lemma create_addr_table_no_ds (db : DB) (c : Conn) :
    Event.sql Sql.dropSchemaDemo ∉ (create_addr_table db c).tr := by
  intro h
  unfold create_addr_table at h
  split at h <;> rename_i heq <;> simp at h <;>
    exact absurd (exec1_mem heq h) (by simp)

lemma copy_addr_data_no_ds (db : DB) (c : Conn) :
    Event.sql Sql.dropSchemaDemo ∉ (copy_addr_data db c).tr := by
  intro h
  unfold copy_addr_data at h
  split at h <;> rename_i heq <;> simp at h <;>
    exact absurd (exec1_mem heq h) (by simp)

lemma load_loop_no_ds (db : DB) (c : Conn) (k : Nat) :
    Event.sql Sql.dropSchemaDemo ∉ (load_loop db c k).1 := by
  induction k generalizing db c with
  | zero => simp [load_loop]
  | succ k ih =>
    intro h
    unfold load_loop at h
    split at h
    next t db1 c1 e heq =>
      simp at h
      exact copy_addr_data_no_ds db c (by rw [heq]; exact h)
    next t db1 c1 heq =>
      split at h
      next t2 c2 r heq2 =>
        simp at h
        rcases h with h | h
        · exact copy_addr_data_no_ds db c (by rw [heq]; exact h)
        · exact ih db1 c1 (by rw [heq2]; exact h)

lemma load_addr_table_no_ds (db : DB) (c : Conn) :
    Event.sql Sql.dropSchemaDemo ∉ (load_addr_table db c).tr := by
  intro h
  unfold load_addr_table at h
  split at h <;> rename_i heq <;> simp at h <;>
    exact load_loop_no_ds db c 10 (by rw [heq]; exact h)

lemma init_pg_trgm_no_ds (db : DB) (c : Conn) :
    Event.sql Sql.dropSchemaDemo ∉ (init_pg_trgm db c).tr := by
  intro h
  unfold init_pg_trgm at h
  split at h
  next t db1 c' e heq =>
    simp at h
    exact create_addr_table_no_ds db c (by rw [heq]; exact h)
  next t db1 c1 heq =>
    split at h
    next t2 db2 c' e heq2 =>
      simp at h
      rcases h with h | h
      · exact create_addr_table_no_ds db c (by rw [heq]; exact h)
      · exact load_addr_table_no_ds db1 c1 (by rw [heq2]; exact h)
    next t2 db2 c2 heq2 =>
      split at h
      next t3 c3 r heq3 =>
        simp at h
        rcases h with h | h | h
        · exact create_addr_table_no_ds db c (by rw [heq]; exact h)
        · exact load_addr_table_no_ds db1 c1 (by rw [heq2]; exact h)
        · exact absurd (autoExec_mem heq3 h) (by simp)

lemma create_addr_btree_index_no_ds (db : DB) (c : Conn) :
    Event.sql Sql.dropSchemaDemo ∉ (create_addr_btree_index db c).tr := by
  intro h
  unfold create_addr_btree_index at h
  split at h
  next t c1 e heq =>
    simp at h
    exact absurd (exec1_mem heq h) (by simp)
  next t c1 heq =>
    split at h
    next t2 c2 r heq2 =>
      simp at h
      rcases h with h | h
      · exact absurd (exec1_mem heq h) (by simp)
      · exact absurd (autoExec_mem heq2 h) (by simp)

lemma test_addr_btree_index_no_ds (db : DB) (c : Conn) :
    Event.sql Sql.dropSchemaDemo ∉ (test_addr_btree_index db c).tr := by
  intro h
  unfold test_addr_btree_index at h
  split at h
  next t c1 e heq =>
    simp at h
    exact absurd (exec1_mem heq h) (by simp)
  next t c1 heq =>
    split at h
    next t2 c2 e heq2 =>
      simp at h
      rcases h with h | h
      · exact absurd (exec1_mem heq h) (by simp)
      · exact absurd (exec1_mem heq2 h) (by simp)
    next t2 c2 heq2 =>
      simp at h
      rcases h with h | h
      · exact absurd (exec1_mem heq h) (by simp)
      · exact absurd (exec1_mem heq2 h) (by simp)

lemma create_addr_gin_index_no_ds (db : DB) (c : Conn) :
    Event.sql Sql.dropSchemaDemo ∉ (create_addr_gin_index db c).tr := by
  intro h
  unfold create_addr_gin_index at h
  split at h
  next t c1 e heq =>
    simp at h
    exact absurd (exec1_mem heq h) (by simp)
  next t c1 heq =>
    split at h
    next t2 c2 r heq2 =>
      simp at h
      rcases h with h | h
      · exact absurd (exec1_mem heq h) (by simp)
      · exact absurd (autoExec_mem heq2 h) (by simp)

lemma test_addr_gin_index_no_ds (db : DB) (c : Conn) :
    Event.sql Sql.dropSchemaDemo ∉ (test_addr_gin_index db c).tr := by
  intro h
  unfold test_addr_gin_index at h
  split at h
  next t c1 e heq =>
    simp at h
    exact absurd (exec1_mem heq h) (by simp)
  next t c1 heq =>
    split at h
    next t2 c2 e heq2 =>
      simp at h
      rcases h with h | h
      · exact absurd (exec1_mem heq h) (by simp)
      · exact absurd (exec1_mem heq2 h) (by simp)
    next t2 c2 heq2 =>
      simp at h
      rcases h with h | h
      · exact absurd (exec1_mem heq h) (by simp)
      · exact absurd (exec1_mem heq2 h) (by simp)

lemma demo_pg_trgm_no_ds (init : Bool) (db : DB) (c : Conn) :
    Event.sql Sql.dropSchemaDemo ∉ (demo_pg_trgm init db c).tr := by
  intro h
  unfold demo_pg_trgm at h
  rcases andThen_mem h with h | h
  case _ =>
    rcases andThen_mem h with h | h
    case _ =>
      rcases andThen_mem h with h | h
      case _ =>
        rcases andThen_mem h with h | h
        case _ =>
          rcases (by simpa using h : Event.sql Sql.dropSchemaDemo ∈
              (if init then init_pg_trgm db c else ⟨[], db, c, none⟩ : PhaseOut).tr) with h'
          by_cases hi : init
          · rw [if_pos hi] at h'
            exact init_pg_trgm_no_ds db c h'
          · rw [if_neg hi] at h'
            simp at h'
        case _ => exact create_addr_btree_index_no_ds _ _ h
      case _ => exact test_addr_btree_index_no_ds _ _ h
    case _ => exact create_addr_gin_index_no_ds _ _ h
  case _ => exact test_addr_gin_index_no_ds _ _ h

lemma execSeq_no_ds {db : DB} {l : List Sql} {c : Conn}
    (h : Event.sql Sql.dropSchemaDemo ∈ (execSeq db c l).1)
    (hs : Sql.dropSchemaDemo ∉ l) : False := by
  obtain ⟨s', hs', he⟩ := execSeq_mem h
  simp at he
  subst he
  exact hs hs'

lemma demo_pss_table_no_ds (db : DB) (c : Conn) :
    Event.sql Sql.dropSchemaDemo ∉ (demo_pss_table db c).tr := by
  intro h
  unfold demo_pss_table at h
  split at h
  next t c1 e heq =>
    simp at h
    exact absurd (exec1_mem heq h) (by simp)
  next t c1 heq =>
    split at h
    next t2 c2 e heq2 =>
      simp at h
      rcases h with h | h
      · exact absurd (exec1_mem heq h) (by simp)
      · exact execSeq_no_ds (by rw [heq2]; exact h) (by simp [pssQueries])
    next t2 c2 heq2 =>
      split at h
      next t3 c3 e heq3 =>
        simp at h
        rcases h with h | h | h
        · exact absurd (exec1_mem heq h) (by simp)
        · exact execSeq_no_ds (by rw [heq2]; exact h) (by simp [pssQueries])
        · exact absurd (exec1_mem heq3 h) (by simp)
      next t3 c3 heq3 =>
        simp at h
        rcases h with h | h | h
        · exact absurd (exec1_mem heq h) (by simp)
        · exact execSeq_no_ds (by rw [heq2]; exact h) (by simp [pssQueries])
        · exact absurd (exec1_mem heq3 h) (by simp)

lemma create_unpriveleged_user_no_ds (db : DB) (c : Conn) :
    Event.sql Sql.dropSchemaDemo ∉ (create_unpriveleged_user db c).tr := by
  intro h
  unfold create_unpriveleged_user at h
  split at h <;> rename_i heq <;> simp at h <;>
    exact execSeq_no_ds (by rw [heq]; exact h) (by decide)

lemma uexec_mem {db : DB} {u : Conn} {s : Sql} {t : List Event} {u1 : Conn} {r : Option Sql}
    (heq : uexec db u s = (t, u1, r)) {e : Event} (h : e ∈ t) : e = Event.usql s := by
  rw [uexec_tr_eq heq] at h
  simpa using h

lemma if_init_user_no_ds (init : Bool) (db : DB) (c : Conn) :
    Event.sql Sql.dropSchemaDemo ∉
      (if init then create_unpriveleged_user db c else ⟨[], db, c, none⟩ : PhaseOut).tr := by
  by_cases hi : init
  · rw [if_pos hi]; exact create_unpriveleged_user_no_ds db c
  · rw [if_neg hi]; simp

lemma demo_unprivileged_user_no_ds (init : Bool) (db : DB) (c : Conn) :
    Event.sql Sql.dropSchemaDemo ∉ (demo_unprivileged_user init db c).tr := by
  intro h
  unfold demo_unprivileged_user at h
  split at h
  next t0 db0 c0 e heq0 =>
    simp at h
    exact if_init_user_no_ds init db c (by rw [heq0]; exact h)
  next t0 db0 c0 heq0 =>
    split at h
    next tu1 u' e hequ1 =>
      simp at h
      rcases h with h | h
      · exact if_init_user_no_ds init db c (by rw [heq0]; exact h)
      · exact absurd (uexec_mem hequ1 h) (by simp)
    next tu1 u1 hequ1 =>
      split at h
      next t1 c1 e heq1 =>
        simp at h
        rcases h with h | h | h
        · exact if_init_user_no_ds init db c (by rw [heq0]; exact h)
        · exact absurd (uexec_mem hequ1 h) (by simp)
        · exact absurd (exec1_mem heq1 h) (by simp)
      next t1 c1 heq1 =>
        split at h
        next t2 c2 e heq2 =>
          simp at h
          rcases h with h | h | h | h
          · exact if_init_user_no_ds init db c (by rw [heq0]; exact h)
          · exact absurd (uexec_mem hequ1 h) (by simp)
          · exact absurd (exec1_mem heq1 h) (by simp)
          · exact absurd (exec1_mem heq2 h) (by simp)
        next t2 c2 heq2 =>
          split at h
          next tu2 u' e hequ2 =>
            simp at h
            rcases h with h | h | h | h | h
            · exact if_init_user_no_ds init db c (by rw [heq0]; exact h)
            · exact absurd (uexec_mem hequ1 h) (by simp)
            · exact absurd (exec1_mem heq1 h) (by simp)
            · exact absurd (exec1_mem heq2 h) (by simp)
            · exact absurd (uexec_mem hequ2 h) (by simp)
          next tu2 u2 hequ2 =>
            split at h
            next tu3 u' e hequ3 =>
              simp at h
              rcases h with h | h | h | h | h | h
              · exact if_init_user_no_ds init db c (by rw [heq0]; exact h)
              · exact absurd (uexec_mem hequ1 h) (by simp)
              · exact absurd (exec1_mem heq1 h) (by simp)
              · exact absurd (exec1_mem heq2 h) (by simp)
              · exact absurd (uexec_mem hequ2 h) (by simp)
              · exact absurd (uexec_mem hequ3 h) (by simp)
            next tu3 u' hequ3 =>
              simp at h
              rcases h with h | h | h | h | h | h
              · exact if_init_user_no_ds init db c (by rw [heq0]; exact h)
              · exact absurd (uexec_mem hequ1 h) (by simp)
              · exact absurd (exec1_mem heq1 h) (by simp)
              · exact absurd (exec1_mem heq2 h) (by simp)
              · exact absurd (uexec_mem hequ2 h) (by simp)
              · exact absurd (uexec_mem hequ3 h) (by simp)

lemma demo_pg_stat_statements_no_ds (init : Bool) (db : DB) (c : Conn) :
    Event.sql Sql.dropSchemaDemo ∉ (demo_pg_stat_statements init db c).tr := by
  intro h
  unfold demo_pg_stat_statements at h
  rcases andThen_mem h with h | h
  · exact demo_pss_table_no_ds db c h
  · exact demo_unprivileged_user_no_ds init _ _ h

lemma setupStmts_no_ds (reg : List String) : Sql.dropSchemaDemo ∉ setupStmts reg := by
  unfold setupStmts
  split <;> split <;> simp

lemma setup_demo_no_ds (reg : List String) (db : DB) (c : Conn) :
    Event.sql Sql.dropSchemaDemo ∉ (setup_demo reg db c).tr := by
  intro h
  unfold setup_demo at h
  split at h <;> rename_i heq <;> simp at h <;>
    exact execSeq_no_ds (by rw [heq]; exact h) (setupStmts_no_ds reg)

lemma check_preload_library_mem {db : DB} {c : Conn} {e : Event}
    (h : e ∈ (check_preload_library db c).1) : e = Event.sql Sql.selectPreload := by
  unfold check_preload_library at h
  split at h <;> rename_i heq <;> exact exec1_mem heq h

lemma check_existing_extensions_mem {db : DB} {c : Conn} {e : Event}
    (h : e ∈ (check_existing_extensions db c).1) :
    e = Event.sql Sql.selectPgExtension ∨ e = Event.rollback := by
  unfold check_existing_extensions at h
  split at h <;> rename_i heq
  · exact Or.inl (exec1_mem heq h)
  · simp at h
    rcases h with h | h
    · exact Or.inl (exec1_mem heq h)
    · exact Or.inr h

lemma validate_demo_mem {db : DB} {c : Conn} {e : Event}
    (h : e ∈ (validate_demo db c).1) :
    e = Event.sql Sql.selectPreload ∨ e = Event.sql Sql.selectPgExtension ∨
    e = Event.rollback := by
  unfold validate_demo at h
  split at h
  next t c1 e1 x heq =>
    exact Or.inl (check_preload_library_mem (by rw [heq]; exact h))
  next t c1 heq =>
    split at h
    next t2 c2 e2 x heq2 =>
      simp at h
      rcases h with h | h
      · exact Or.inl (check_preload_library_mem (by rw [heq]; exact h))
      · rcases check_existing_extensions_mem (by rw [heq2]; exact h) with h' | h' <;> tauto
    next t2 c2 reg heq2 =>
      simp at h
      rcases h with h | h
      · exact Or.inl (check_preload_library_mem (by rw [heq]; exact h))
      · rcases check_existing_extensions_mem (by rw [heq2]; exact h) with h' | h' <;> tauto
  next t c1 heq =>
    exact Or.inl (check_preload_library_mem (by rw [heq]; exact h))

lemma if_init_setup_no_ds (init : Bool) (reg : List String) (db : DB) (c : Conn) :
    Event.sql Sql.dropSchemaDemo ∉
      (if init then setup_demo reg db c else ⟨[], db, c, none⟩ : PhaseOut).tr := by
  by_cases hi : init
  · rw [if_pos hi]; exact setup_demo_no_ds reg db c
  · rw [if_neg hi]; simp

lemma run_body_no_ds (init block : Bool) (db : DB) :
    Event.sql Sql.dropSchemaDemo ∉ (run_body init block db).tr := by
  intro h
  unfold run_body at h
  split at h
  · simp at h
  · split at h
    next t c1 e x reg heq =>
      rcases validate_demo_mem (by rw [heq]; exact h) with h' | h' | h' <;> simp at h'
    next t c1 reg heq =>
      rcases validate_demo_mem (by rw [heq]; exact h) with h' | h' | h' <;> simp at h'
    next t c1 reg heq =>
      split at h
      next t2 db2 c2 r heq2 =>
        simp at h
        rcases h with h | h
        · rcases validate_demo_mem (by rw [heq]; exact h) with h' | h' | h' <;> simp at h'
        · have h' : Event.sql Sql.dropSchemaDemo ∈
              (andThen (andThen
                (if init then setup_demo reg db c1 else ⟨[], db, c1, none⟩)
                (demo_pg_trgm init)) (demo_pg_stat_statements init)).tr := by
            rw [heq2]; exact h
          rcases andThen_mem h' with h'' | h''
          · rcases andThen_mem h'' with h3 | h3
            · exact if_init_setup_no_ds init reg db c1 h3
            · exact demo_pg_trgm_no_ds init _ _ h3
          · exact demo_pg_stat_statements_no_ds init _ _ h''

lemma run_body_count_ds (init block : Bool) (db : DB) :
    (run_body init block db).tr.count (Event.sql Sql.dropSchemaDemo) = 0 :=
  List.count_eq_zero.mpr (run_body_no_ds init block db)

lemma run_body_preload_false (init : Bool) (db : DB) (hp : db.preloadPss = false) :
    run_body init false db =
      ⟨[Event.sql Sql.selectPreload], db, ⟨true, none, false⟩, none, []⟩ := by
  simp [run_body, validate_demo, check_preload_library, exec1, applySql, view, freshConn, hp]

/-- C1 (counterexample): on a server whose preload check fails, a run with
the default `teardown=true` (and teardown-only NOT requested) still
executes the teardown phase — its namespace-drop statement appears in the
trace — contradicting the claim that teardown runs only when teardown-only
was requested. -/
theorem claimC1_cex :
    dbNoPreload.preloadPss = false ∧
    Event.sql Sql.dropSchemaDemo ∈ (run_demo true true false dbNoPreload).tr := by
  exact ⟨rfl, by decide⟩

/-- C1 (amended): when the preload capability is inactive and teardown-only
was not requested, no setup, demo, or object-creation statement is ever
issued (every statement issued is the validation query or a teardown
statement), and the teardown phase executes exactly when the `teardown`
flag is set (not only when teardown-only was requested). -/
theorem claimC1_amended (init td : Bool) (db : DB) (hp : db.preloadPss = false) :
    (∀ s : Sql, Event.sql s ∈ (run_demo init td false db).tr →
      s = Sql.selectPreload ∨ isTeardownSql s = true) ∧
    (Event.sql Sql.dropSchemaDemo ∈ (run_demo init td false db).tr ↔ td = true) := by
  have hb := run_body_preload_false init db hp
  cases td with
  | false =>
    simp only [run_demo, hb, Bool.or_self]
    constructor
    · intro s hs
      simp at hs
      exact Or.inl hs
    · simp
  | true =>
    simp only [run_demo, hb, Bool.true_or, if_true]
    split <;> rename_i heqT
    all_goals
      have hcnt := teardown_count_ds [] db ⟨true, none, false⟩
      rw [heqT] at hcnt
      simp at hcnt
      constructor
      · intro s hs
        simp at hs
        rcases hs with hs | hs
        · exact Or.inl hs
        · rcases teardown_demo_mem (show Event.sql s ∈
              (teardown_demo [] db ⟨true, none, false⟩).tr by rw [heqT]; exact hs) with
            ⟨s', hs', hts⟩ | hs' | hs'
          · simp at hs'
            subst hs'
            exact Or.inr hts
          · simp at hs'
          · simp at hs'
      · simp
        by_contra hmem
        rw [List.count_eq_zero.mpr hmem] at hcnt
        exact absurd hcnt (by simp)

/-- C1 (witness for the amended claim): concrete preload-inactive run. -/
theorem claimC1_witness :
    dbNoPreload.preloadPss = false ∧
    ((∀ s : Sql, Event.sql s ∈ (run_demo false true false dbNoPreload).tr →
       s = Sql.selectPreload ∨ isTeardownSql s = true) ∧
     (Event.sql Sql.dropSchemaDemo ∈ (run_demo false true false dbNoPreload).tr ↔
       true = true)) :=
  ⟨rfl, claimC1_amended false true dbNoPreload rfl⟩

/-- C4: for every run started with teardown enabled (and not teardown-only),
if the guarded body raises during a demo phase (the raising statement is a
demo statement), the teardown phase still executes — its namespace-drop
statement appears exactly once in the trace — and an exception still
propagates to the caller. -/
theorem claimC4 (init : Bool) (db : DB) (e : Sql)
    (herr : (run_body init false db).err = some e) (hdemo : isDemoSql e = true) :
    (run_demo init true false db).tr.count (Event.sql Sql.dropSchemaDemo) = 1 ∧
    (run_demo init true false db).err.isSome = true := by
  have hbody := run_body_count_ds init false db
  simp only [run_demo, Bool.true_or, if_true]
  split <;> rename_i heqT
  · have hcnt := teardown_count_ds (run_body init false db).reg
      (run_body init false db).db (run_body init false db).c
    rw [heqT] at hcnt
    simp at hcnt
    constructor
    · simp [List.count_append, hbody, hcnt]
    · simp
  · rw [herr]
    have hcnt := teardown_count_ds (run_body init false db).reg
      (run_body init false db).db (run_body init false db).c
    rw [heqT] at hcnt
    simp at hcnt
    constructor
    · simp [List.count_append, hbody, hcnt]
    · simp

/-- C4 (witness): a run without initialisation against a clean server makes
DEMO_A raise at the index-creation statement; teardown still issues its
namespace drop exactly once and the exception escapes. -/
theorem claimC4_witness :
    (run_body false false dbClean).err = some Sql.createBtreeIdx ∧
    isDemoSql Sql.createBtreeIdx = true ∧
    ((run_demo false true false dbClean).tr.count (Event.sql Sql.dropSchemaDemo) = 1 ∧
     (run_demo false true false dbClean).err.isSome = true) :=
  ⟨by decide, by decide, claimC4 false dbClean Sql.createBtreeIdx (by decide) (by decide)⟩

lemma run_body_schema_exists (db : DB) (hp : db.preloadPss = true)
    (hs : db.schemaDemo = true) :
    run_body true false db =
      ⟨[Event.sql Sql.selectPreload, Event.sql Sql.selectPgExtension, Event.rollback,
        Event.sql Sql.createSchemaDemo, Event.rollback],
       db, freshConn, some Sql.createSchemaDemo, db.exts⟩ := by
  simp [run_body, validate_demo, check_preload_library, check_existing_extensions,
        setup_demo, setupStmts, execSeq, exec1, applySql, view, freshConn, andThen, hp, hs]

/-- C9: setup is not idempotent with respect to the namespace: the
schema-creation statement is issued unconditionally, so a run with init
enabled against a database where the demo namespace already exists raises
at that statement, rolls back (committed state unchanged), and the run
aborts with an exception escaping to the caller. -/
theorem claimC9 (db : DB) (td : Bool) (hp : db.preloadPss = true)
    (hs : db.schemaDemo = true) :
    (run_body true false db).err = some Sql.createSchemaDemo ∧
    (run_body true false db).db = db ∧
    (run_demo true td false db).err.isSome = true := by
  have hb := run_body_schema_exists db hp hs
  refine ⟨by rw [hb], by rw [hb], ?_⟩
  cases td with
  | true =>
    simp only [run_demo, hb, Bool.true_or, if_true]
    split
    · simp
    · simp
  | false =>
    simp only [run_demo, hb, Bool.or_self]
    simp

/-- C9 (witness): concrete leftover-schema server. -/
theorem claimC9_witness :
    (run_body true false dbSchemaLeft).err = some Sql.createSchemaDemo ∧
    (run_body true false dbSchemaLeft).db = dbSchemaLeft ∧
    (run_demo true true false dbSchemaLeft).err.isSome = true :=
  claimC9 dbSchemaLeft true (by decide) (by decide)

/-- C3: setup is atomic.  If no statement raises, the phase ends in exactly
one commit (and no rollback) and the connection is left resolved; if any
statement raises, the transaction is rolled back — the committed database
state is exactly what it was before setup — and the same raising statement
propagates as the phase's exception. -/
theorem claimC3 (reg : List String) (db : DB) (c : Conn) :
    ((setup_demo reg db c).err = none →
       (setup_demo reg db c).c = freshConn ∧
       (setup_demo reg db c).tr.count Event.commit = 1 ∧
       (setup_demo reg db c).tr.count Event.rollback = 0 ∧
       (setup_demo reg db c).tr.getLast? = some Event.commit) ∧
    (∀ e, (setup_demo reg db c).err = some e →
       (setup_demo reg db c).db = db ∧
       (setup_demo reg db c).c = freshConn ∧
       (setup_demo reg db c).tr.count Event.commit = 0 ∧
       (setup_demo reg db c).tr.getLast? = some Event.rollback) := by
  unfold setup_demo
  have ht : ∀ ev ∈ (execSeq db c (setupStmts reg)).1, ∃ s, ev = Event.sql s := by
    intro ev hm
    obtain ⟨s, _, hev⟩ := execSeq_mem hm
    exact ⟨s, hev⟩
  split
  next t cx e heq =>
    have htc : Event.commit ∉ t := by
      intro hm
      obtain ⟨s, hev⟩ := ht Event.commit (by rw [heq]; exact hm)
      simp at hev
    constructor
    · intro h
      simp at h
    · intro e' he
      refine ⟨rfl, rfl, ?_, ?_⟩
      · simp [List.count_append, List.count_eq_zero.mpr htc]
      · simp
  next t c1 heq =>
    have htc : Event.commit ∉ t := by
      intro hm
      obtain ⟨s, hev⟩ := ht Event.commit (by rw [heq]; exact hm)
      simp at hev
    have htr : Event.rollback ∉ t := by
      intro hm
      obtain ⟨s, hev⟩ := ht Event.rollback (by rw [heq]; exact hm)
      simp at hev
    constructor
    · intro h
      refine ⟨rfl, ?_, ?_, ?_⟩
      · simp [List.count_append, List.count_eq_zero.mpr htc]
      · simp [List.count_append, List.count_eq_zero.mpr htr]
      · simp
    · intro e' he
      simp at he

/-- C3 (witness): a clean-server setup commits once; a leftover-schema
setup raises, leaves the committed state unchanged, and ends in a
rollback. -/
theorem claimC3_witness :
    ((setup_demo [] dbClean freshConn).c = freshConn ∧
     (setup_demo [] dbClean freshConn).tr.count Event.commit = 1 ∧
     (setup_demo [] dbClean freshConn).tr.count Event.rollback = 0 ∧
     (setup_demo [] dbClean freshConn).tr.getLast? = some Event.commit) ∧
    ((setup_demo [] dbSchemaLeft freshConn).db = dbSchemaLeft ∧
     (setup_demo [] dbSchemaLeft freshConn).c = freshConn ∧
     (setup_demo [] dbSchemaLeft freshConn).tr.count Event.commit = 0 ∧
     (setup_demo [] dbSchemaLeft freshConn).tr.getLast? = some Event.rollback) :=
  ⟨(claimC3 [] dbClean freshConn).1 (by decide),
   (claimC3 [] dbSchemaLeft freshConn).2 Sql.createSchemaDemo (by decide)⟩

lemma exec1_err_of_eq {db : DB} {c : Conn} {s : Sql} {t : List Event} {c1 : Conn} {e : Sql}
    (h : exec1 db c s = (t, c1, some e)) : some e = some s := by
  rw [exec1_err_eq h]

/-- C6: the three revoke statements of teardown are individually guarded:
whatever the executor does on each of them (including injected external
faults), all three are attempted in order, the rest of teardown is still
reached (the namespace drop follows them in the statement sequence), and
the exception teardown may propagate is never one of the revokes. -/
theorem claimC6 (f1 f2 f3 : Bool) (reg : List String) (db : DB) (c : Conn) :
    sqlEvents (revokePhaseF f1 f2 f3 db c).1 =
      [Sql.revokeFunc, Sql.revokeSchema, Sql.revokeDb] ∧
    (∃ rest, sqlEvents (teardown_demo reg db c).tr =
      Sql.revokeFunc :: Sql.revokeSchema :: Sql.revokeDb :: Sql.dropSchemaDemo :: rest) ∧
    (teardown_demo reg db c).err ≠ some Sql.revokeFunc ∧
    (teardown_demo reg db c).err ≠ some Sql.revokeSchema ∧
    (teardown_demo reg db c).err ≠ some Sql.revokeDb := by
  refine ⟨revokePhaseF_sqlEvents f1 f2 f3 db c, ?_⟩
  unfold teardown_demo
  split; rename_i t0 c0 heq0
  have h0 : sqlEvents t0 = [Sql.revokeFunc, Sql.revokeSchema, Sql.revokeDb] := by
    have h := revokePhaseF_sqlEvents false false false db c
    rw [heq0] at h
    simpa using h
  split
  next t1 c1 e heq1 =>
    have h1 := exec1_tr_eq heq1
    subst h1
    have he := exec1_err_eq heq1
    subst he
    exact ⟨⟨[], by simp [sqlEvents_append, h0, sqlEvents]⟩, by simp, by simp, by simp⟩
  next t1 c1 heq1 =>
    have h1 := exec1_tr_eq heq1
    subst h1
    split
    next t2 c2 e heq2 =>
      have h2 := exec1_tr_eq heq2
      subst h2
      have he := exec1_err_eq heq2
      subst he
      exact ⟨⟨[Sql.dropRoleMonitor], by simp [sqlEvents_append, h0, sqlEvents]⟩,
             by simp, by simp, by simp⟩
    next t2 c2 heq2 =>
      have h2 := exec1_tr_eq heq2
      subst h2
      split
      next t3 c3 e heq3 =>
        have h3 := exec1_tr_eq heq3
        subst h3
        have he := exec1_err_eq heq3
        subst he
        exact ⟨⟨[Sql.dropRoleMonitor, Sql.selectDemoExts],
                by simp [sqlEvents_append, h0, sqlEvents]⟩, by simp, by simp, by simp⟩
      next t3 c3 heq3 =>
        have h3 := exec1_tr_eq heq3
        subst h3
        split
        next t4 c4 e heq4 =>
          obtain ⟨n, hn⟩ := extDropLoop_err (by
            rw [heq4] : (extDropLoop reg (view db c2) c3
              ((view (view db c2) c3).exts.filter isDemoExt)).2.2 = some e)
          subst hn
          exact ⟨⟨Sql.dropRoleMonitor :: Sql.selectDemoExts :: sqlEvents t4,
                  by simp [sqlEvents_append, h0, sqlEvents]⟩, by simp, by simp, by simp⟩
        next t4 c4 heq4 =>
          exact ⟨⟨Sql.dropRoleMonitor :: Sql.selectDemoExts :: sqlEvents t4,
                  by simp [sqlEvents_append, h0, sqlEvents]⟩, by simp, by simp, by simp⟩

/-- C10: the revoke steps are not independent at the state level: no commit
is issued anywhere in the revoke phase; a successful first revoke clears the
function privilege only in the uncommitted transaction; and when a later
revoke fails (here: an injected fault on the second), the per-step handler's
full-transaction rollback reverts the earlier successful revoke too, so
after the phase the privilege equals its pre-phase committed value. -/
theorem claimC10_thm (f1 f2 f3 : Bool) (db : DB) (c : Conn) (hs : db.schemaDemo = true)
    (hf : db.funcPss = true) (hr : db.roleMonitor = true) :
    (revokePhaseF f1 f2 f3 db c).1.count Event.commit = 0 ∧
    (view db (bestEffortF false db freshConn Sql.revokeFunc).2).privFunc = false ∧
    (view db (revokePhaseF false true false db freshConn).2).privFunc = db.privFunc := by
  refine ⟨?_, ?_, ?_⟩
  · refine List.count_eq_zero.mpr ?_
    intro hm
    rcases revokePhaseF_mem hm with h | h | h | h <;> simp at h
  · simp [bestEffortF, exec1F, exec1, applySql, view, freshConn, hs, hf, hr]
  · simp [revokePhaseF, bestEffortF, exec1F, exec1, applySql, view, freshConn, hs, hf, hr]

/-- C10 (witness): on the mid-demo state with every privilege granted, the
revoke phase with a fault injected into the second revoke ends with the
function privilege back at `true` even though the first revoke succeeded. -/
theorem claimC10_witness :
    dbFull.schemaDemo = true ∧ dbFull.funcPss = true ∧ dbFull.roleMonitor = true ∧
    ((revokePhaseF false true false dbFull freshConn).1.count Event.commit = 0 ∧
     (view dbFull (bestEffortF false dbFull freshConn Sql.revokeFunc).2).privFunc = false ∧
     (view dbFull (revokePhaseF false true false dbFull freshConn).2).privFunc =
       dbFull.privFunc) :=
  ⟨rfl, rfl, rfl,
   claimC10_thm false true false dbFull freshConn (by decide) (by decide) (by decide)⟩

lemma create_unpriveleged_user_mem {db : DB} {c : Conn} {e : Event}
    (h : e ∈ (create_unpriveleged_user db c).tr) :
    (∃ s, e = Event.sql s) ∨ e = Event.commit := by
  unfold create_unpriveleged_user at h
  split at h <;> rename_i heq
  · obtain ⟨s, _, he⟩ := execSeq_mem (show e ∈
      (execSeq db c [.createUser, .grantConnect, .grantUsage, .alterUserSp]).1 by
        rw [heq]; exact h)
    exact Or.inl ⟨s, he⟩
  · simp at h
    rcases h with h | h
    · obtain ⟨s, _, he⟩ := execSeq_mem (show e ∈
        (execSeq db c [.createUser, .grantConnect, .grantUsage, .alterUserSp]).1 by
          rw [heq]; exact h)
      exact Or.inl ⟨s, he⟩
    · exact Or.inr h

lemma if_init_user_mem {init : Bool} {db : DB} {c : Conn} {e : Event}
    (h : e ∈ (if init then create_unpriveleged_user db c
               else ⟨[], db, c, none⟩ : PhaseOut).tr) :
    (∃ s, e = Event.sql s) ∨ e = Event.commit := by
  by_cases hi : init
  · rw [if_pos hi] at h
    exact create_unpriveleged_user_mem h
  · rw [if_neg hi] at h
    simp at h

lemma if_init_user_count_u (init : Bool) (db : DB) (c : Conn) (e : Event)
    (h1 : ∀ s, e ≠ Event.sql s) (h2 : e ≠ Event.commit) :
    (if init then create_unpriveleged_user db c
      else ⟨[], db, c, none⟩ : PhaseOut).tr.count e = 0 := by
  refine List.count_eq_zero.mpr ?_
  intro hm
  rcases if_init_user_mem hm with ⟨s, hs⟩ | hs
  · exact h1 s hs
  · exact h2 hs

lemma if_init_user_prim (init : Bool) (db : DB) (c : Conn) :
    ∀ e ∈ (if init then create_unpriveleged_user db c
            else ⟨[], db, c, none⟩ : PhaseOut).tr, isPrimEvent e = true := by
  intro e hm
  rcases if_init_user_mem hm with ⟨s, hs⟩ | hs <;> subst hs <;> rfl

lemma lastUResolved_prim {l : List Event} (h : ∀ e ∈ l, isPrimEvent e = true) :
    ∀ rest, lastUResolved rest = true → lastUResolved (l ++ rest) = true := by
  induction l with
  | nil => intro rest hr; simpa using hr
  | cons e l ih =>
    intro rest hr
    have he : isPrimEvent e = true := h e (by simp)
    have hl : ∀ e' ∈ l, isPrimEvent e' = true := fun e' hm => h e' (by simp [hm])
    cases e <;> simp [isPrimEvent] at he <;> simp [lastUResolved] <;> exact ih hl rest hr

/-- C8: the secondary (unprivileged) session opened in
`demo_unprivileged_user` is released unconditionally: on every exit path —
normal or exceptional — the trace contains exactly as many secondary-session
rollbacks and closes as opens, and the last secondary-session event of the
trace (when there is one) is the close, so no secondary-session activity
survives past the release and control returns to the primary flow with the
session rolled back and closed. -/
theorem claimC8 (init : Bool) (db : DB) (c : Conn) :
    (demo_unprivileged_user init db c).tr.count Event.uconnect =
      (demo_unprivileged_user init db c).tr.count Event.uclose ∧
    (demo_unprivileged_user init db c).tr.count Event.urollback =
      (demo_unprivileged_user init db c).tr.count Event.uclose ∧
    lastUResolved (demo_unprivileged_user init db c).tr.reverse = true := by
  have hcu := if_init_user_count_u init db c Event.uconnect (fun s => by simp) (by simp)
  have hcc := if_init_user_count_u init db c Event.uclose (fun s => by simp) (by simp)
  have hcr := if_init_user_count_u init db c Event.urollback (fun s => by simp) (by simp)
  unfold demo_unprivileged_user
  split
  next t0 db0 c0 e heq0 =>
    rw [heq0] at hcu hcc hcr
    simp at hcu hcc hcr
    refine ⟨by simp [hcu, hcc], by simp [hcr, hcc], ?_⟩
    have hp := if_init_user_prim init db c
    rw [heq0] at hp
    simp at hp
    have := lastUResolved_prim (l := t0.reverse) (by
      intro e' hm
      exact hp e' (by simpa using hm)) [] rfl
    simpa using this
  next t0 db0 c0 heq0 =>
    rw [heq0] at hcu hcc hcr
    simp at hcu hcc hcr
    split
    next tu1 u' e hequ1 =>
      have h1 := uexec_tr_eq hequ1
      subst h1
      refine ⟨?_, ?_, ?_⟩
      · simp [List.count_append, hcu, hcc]
      · simp [List.count_append, hcr, hcc]
      · simp [List.reverse_append, lastUResolved]
    next tu1 u1 hequ1 =>
      have h1 := uexec_tr_eq hequ1
      subst h1
      split
      next t1 c1 e heq1 =>
        have h2 := exec1_tr_eq heq1
        subst h2
        refine ⟨?_, ?_, ?_⟩
        · simp [List.count_append, hcu, hcc]
        · simp [List.count_append, hcr, hcc]
        · simp [List.reverse_append, lastUResolved]
      next t1 c1 heq1 =>
        have h2 := exec1_tr_eq heq1
        subst h2
        split
        next t2 c2 e heq2 =>
          have h3 := exec1_tr_eq heq2
          subst h3
          refine ⟨?_, ?_, ?_⟩
          · simp [List.count_append, hcu, hcc]
          · simp [List.count_append, hcr, hcc]
          · simp [List.reverse_append, lastUResolved]
        next t2 c2 heq2 =>
          have h3 := exec1_tr_eq heq2
          subst h3
          split
          next tu2 u' e hequ2 =>
            have h4 := uexec_tr_eq hequ2
            subst h4
            refine ⟨?_, ?_, ?_⟩
            · simp [List.count_append, hcu, hcc]
            · simp [List.count_append, hcr, hcc]
            · simp [List.reverse_append, lastUResolved]
          next tu2 u2 hequ2 =>
            have h4 := uexec_tr_eq hequ2
            subst h4
            split
            next tu3 u' e hequ3 =>
              have h5 := uexec_tr_eq hequ3
              subst h5
              refine ⟨?_, ?_, ?_⟩
              · simp [List.count_append, hcu, hcc]
              · simp [List.count_append, hcr, hcc]
              · simp [List.reverse_append, lastUResolved]
            next tu3 u' hequ3 =>
              have h5 := uexec_tr_eq hequ3
              subst h5
              refine ⟨?_, ?_, ?_⟩
              · simp [List.count_append, hcu, hcc]
              · simp [List.count_append, hcr, hcc]
              · simp [List.reverse_append, lastUResolved]

lemma setExts_setExts (v : DB) (a b : List String) : setExts (setExts v a) b = setExts v b := rfl

lemma setExts_self (v : DB) : setExts v v.exts = v := rfl

lemma contains_filter (l : List String) (p : String → Bool) (x : String) :
    (l.filter p).contains x = (l.contains x && p x) := by
  rw [Bool.eq_iff_iff]
  simp [List.contains, List.elem_iff, List.mem_filter, Bool.and_eq_true]

/-- The extension names the teardown loop actually drops, in order. -/
def dropSet (reg ns : List String) : List String := ns.filter (fun n => !reg.contains n)

/-- Keep an installed extension after the teardown loop has processed the
row list `ns`: it survives unless it occurs in `ns` outside the registry. -/
def keepAfter (reg ns : List String) (x : String) : Bool :=
  !(ns.contains x && !reg.contains x)

lemma dropSet_cons_mem {reg : List String} {n : String} (rest : List String)
    (hn : reg.contains n = true) : dropSet reg (n :: rest) = dropSet reg rest := by
  unfold dropSet
  rw [List.filter_cons, hn]
  simp

lemma dropSet_cons_not {reg : List String} {n : String} (rest : List String)
    (hn : reg.contains n = false) : dropSet reg (n :: rest) = n :: dropSet reg rest := by
  unfold dropSet
  rw [List.filter_cons, hn]
  simp

lemma filter_keepAfter_nil (reg : List String) (l : List String) :
    l.filter (keepAfter reg []) = l := by
  have h : keepAfter reg [] = fun _ => true := by
    funext x
    simp [keepAfter]
  rw [h, List.filter_true]

lemma filter_keepAfter_cons_mem {reg : List String} {n : String} (rest l : List String)
    (hn : reg.contains n = true) :
    l.filter (keepAfter reg (n :: rest)) = l.filter (keepAfter reg rest) := by
  refine List.filter_congr ?_
  intro x hx
  unfold keepAfter
  by_cases hxn : x = n
  · subst hxn
    have hmem : x ∈ reg := by simpa [List.contains, List.elem_iff] using hn
    simp [List.contains_cons, hmem]
  · have hb : (x == n) = false := by simpa using hxn
    simp [List.contains_cons, hb, hxn]

lemma filter_keepAfter_cons_not {reg : List String} {n : String} (rest l : List String)
    (hn : reg.contains n = false) :
    (l.filter (fun x => !(x == n))).filter (keepAfter reg rest) =
      l.filter (keepAfter reg (n :: rest)) := by
  rw [List.filter_filter]
  refine List.filter_congr ?_
  intro x hx
  unfold keepAfter
  by_cases hxn : x = n
  · subst hxn
    have hmem : x ∉ reg := by simpa [List.contains, List.elem_iff] using hn
    simp [List.contains_cons, hmem]
  · have hb : (x == n) = false := by simpa using hxn
    simp [List.contains_cons, hb, hxn]

lemma extDropLoop_spec (reg : List String) (db : DB) :
    ∀ (ns : List String) (c : Conn), c.aborted = false →
      (view db c).ginIdx = false → (view db c).funcPss = false →
      (extDropLoop reg db c ns).2.2 = none ∧
      (extDropLoop reg db c ns).1 =
        (dropSet reg ns).map (fun n => Event.sql (Sql.dropExtension n)) ∧
      view db (extDropLoop reg db c ns).2.1 =
        setExts (view db c) ((view db c).exts.filter (keepAfter reg ns)) := by
  intro ns
  induction ns with
  | nil =>
    intro c hab hg hf
    refine ⟨rfl, rfl, ?_⟩
    show view db c = setExts (view db c) ((view db c).exts.filter (keepAfter reg []))
    rw [filter_keepAfter_nil, setExts_self]
  | cons n rest ih =>
    intro c hab hg hf
    by_cases hn : reg.contains n = true
    · obtain ⟨ih1, ih2, ih3⟩ := ih c hab hg hf
      have hred : extDropLoop reg db c (n :: rest) = extDropLoop reg db c rest := by
        show (if reg.contains n = true then extDropLoop reg db c rest
              else match exec1 db c (.dropExtension n) with
                   | (t, c1, some e) => (t, c1, some e)
                   | (t, c1, none) =>
                     match extDropLoop reg db c1 rest with
                     | (t2, c2, r) => (t ++ t2, c2, r)) = extDropLoop reg db c rest
        rw [if_pos hn]
      rw [hred]
      refine ⟨ih1, ?_, ?_⟩
      · rw [ih2, dropSet_cons_mem rest hn]
      · rw [ih3, filter_keepAfter_cons_mem rest _ hn]
    · have hn' : reg.contains n = false := by simpa using hn
      have happ : applySql (Sql.dropExtension n) (view db c) =
          some (some (setExts (view db c)
            ((view db c).exts.filter (fun x => !(x == n))))) := by
        simp [applySql, hg, hf, setExts]
      have hexec : exec1 db c (Sql.dropExtension n) =
          ([Event.sql (Sql.dropExtension n)],
           ⟨true, some (setExts (view db c) ((view db c).exts.filter (fun x => !(x == n)))),
            false⟩, none) := by
        unfold exec1
        rw [if_neg (by simp [hab]), happ]
      set c1 : Conn :=
        ⟨true, some (setExts (view db c) ((view db c).exts.filter (fun x => !(x == n)))),
         false⟩ with hc1
      have hv1 : view db c1 = setExts (view db c)
          ((view db c).exts.filter (fun x => !(x == n))) := rfl
      obtain ⟨ih1, ih2, ih3⟩ := ih c1 rfl (by rw [hv1]; exact hg) (by rw [hv1]; exact hf)
      rcases hsplit : extDropLoop reg db c1 rest with ⟨t2, c2, r⟩
      rw [hsplit] at ih1 ih2 ih3
      simp only at ih1 ih2 ih3
      have hred : extDropLoop reg db c (n :: rest) =
          ([Event.sql (Sql.dropExtension n)] ++ t2, c2, r) := by
        show (if reg.contains n = true then extDropLoop reg db c rest
              else match exec1 db c (.dropExtension n) with
                   | (t, c1, some e) => (t, c1, some e)
                   | (t, c1, none) =>
                     match extDropLoop reg db c1 rest with
                     | (t2, c2, r) => (t ++ t2, c2, r)) = _
        rw [if_neg (by rw [hn']; simp), hexec]
        show (match extDropLoop reg db c1 rest with
              | (t2, c2, r) => ([Event.sql (Sql.dropExtension n)] ++ t2, c2, r)) = _
        rw [hsplit]
      rw [hred]
      refine ⟨ih1, ?_, ?_⟩
      · show Event.sql (Sql.dropExtension n) :: t2 = _
        rw [ih2, dropSet_cons_not rest hn', List.map_cons]
      · show view db c2 = _
        rw [ih3, hv1, setExts_setExts]
        congr 1
        exact filter_keepAfter_cons_not rest _ hn'

lemma filter_keepAfter_demo (reg : List String) (l : List String) :
    l.filter (keepAfter reg (l.filter isDemoExt)) = l.filter (keepExt reg) := by
  refine List.filter_congr ?_
  intro x hx
  unfold keepAfter keepExt
  have hc : (l.filter isDemoExt).contains x = isDemoExt x := by
    rw [contains_filter]
    have hm : l.contains x = true := by simpa [List.contains, List.elem_iff] using hx
    rw [hm, Bool.true_and]
  rw [hc]

lemma teardown_demo_ok (reg : List String) (db : DB) (c : Conn)
    (hWF : WFb db = true) (hpend : c.pend = none) (hab : c.aborted = false) :
    (teardown_demo reg db c).err = none ∧
    (teardown_demo reg db c).db = tearDB reg db ∧
    (teardown_demo reg db c).c = freshConn ∧
    (∀ x : String, Event.sql (Sql.dropExtension x) ∈ (teardown_demo reg db c).tr ↔
       (x ∈ db.exts ∧ isDemoExt x = true ∧ reg.contains x = false)) := by
  rw [WFb] at hWF
  simp only [Bool.and_eq_true, Bool.or_eq_true, Bool.not_eq_true'] at hWF
  obtain ⟨⟨⟨⟨⟨⟨hw1, hw2⟩, hw3⟩, hw4⟩, hw5⟩, hw6⟩, hw7⟩ := hWF
  by_cases hr : db.roleMonitor = true
  · by_cases hs : db.schemaDemo = true
    · by_cases hfn : db.funcPss = true
      · -- B: roleMonitor, schema and function all present; every revoke succeeds
        obtain ⟨l1, l2, l3⟩ := extDropLoop_spec reg
          ({ preloadPss := db.preloadPss, schemaDemo := false, addrTable := false,
             btreeIdx := false, ginIdx := false, funcPss := false, roleMonitor := false,
             privDb := false, privSchema := false, privFunc := false,
             searchPathDemo := db.searchPathDemo, exts := db.exts } : DB)
          (List.filter isDemoExt db.exts) ⟨true, none, false⟩ rfl rfl rfl
        rcases hE : extDropLoop reg
          ({ preloadPss := db.preloadPss, schemaDemo := false, addrTable := false,
             btreeIdx := false, ginIdx := false, funcPss := false, roleMonitor := false,
             privDb := false, privSchema := false, privFunc := false,
             searchPathDemo := db.searchPathDemo, exts := db.exts } : DB)
          ⟨true, none, false⟩ (List.filter isDemoExt db.exts) with ⟨t4, c4, r⟩
        rw [hE] at l1 l2 l3
        simp at l1
        subst l1
        simp at l2
        simp [view] at l3
        simp [teardown_demo, revokePhaseF, bestEffortF, exec1F, exec1, applySql, view,
              hpend, hab, hr, hs, hfn, freshConn, hE, l2, l3, filter_keepAfter_demo,
              tearDB, setExts, dropSet, List.mem_filter]
        exact fun x _ => and_comm
      · -- C: role and schema present but no function: first revoke fails and is
        -- swallowed; the other two succeed
        have hfn' : db.funcPss = false := by simpa using hfn
        have hpf : db.privFunc = false := hw6.resolve_right (by simp [hfn'])
        obtain ⟨l1, l2, l3⟩ := extDropLoop_spec reg
          ({ preloadPss := db.preloadPss, schemaDemo := false, addrTable := false,
             btreeIdx := false, ginIdx := false, funcPss := false, roleMonitor := false,
             privDb := false, privSchema := false, privFunc := false,
             searchPathDemo := db.searchPathDemo, exts := db.exts } : DB)
          (List.filter isDemoExt db.exts) ⟨true, none, false⟩ rfl rfl rfl
        rcases hE : extDropLoop reg
          ({ preloadPss := db.preloadPss, schemaDemo := false, addrTable := false,
             btreeIdx := false, ginIdx := false, funcPss := false, roleMonitor := false,
             privDb := false, privSchema := false, privFunc := false,
             searchPathDemo := db.searchPathDemo, exts := db.exts } : DB)
          ⟨true, none, false⟩ (List.filter isDemoExt db.exts) with ⟨t4, c4, r⟩
        rw [hE] at l1 l2 l3
        simp at l1
        subst l1
        simp at l2
        simp [view] at l3
        simp [teardown_demo, revokePhaseF, bestEffortF, exec1F, exec1, applySql, view,
              hpend, hab, hr, hs, hfn', hpf, freshConn, hE, l2, l3, filter_keepAfter_demo,
              tearDB, setExts, dropSet, List.mem_filter]
        exact fun x _ => and_comm
    · -- D: role present but no schema: only the database revoke succeeds; the
      -- drops are no-ops apart from removing the role
      have hs' : db.schemaDemo = false := by simpa using hs
      have hfn' : db.funcPss = false := hw4.resolve_right (by simp [hs'])
      have hpf : db.privFunc = false := hw6.resolve_right (by simp [hfn'])
      have hps : db.privSchema = false := hw5.resolve_right (by simp [hs'])
      have hat : db.addrTable = false := hw1.resolve_right (by simp [hs'])
      have hbt : db.btreeIdx = false := hw2.resolve_right (by simp [hat])
      have hgin : db.ginIdx = false := hw3.resolve_right (by simp [hat])
      obtain ⟨l1, l2, l3⟩ := extDropLoop_spec reg
        ({ preloadPss := db.preloadPss, schemaDemo := false, addrTable := false,
           btreeIdx := false, ginIdx := false, funcPss := false, roleMonitor := false,
           privDb := false, privSchema := false, privFunc := false,
           searchPathDemo := db.searchPathDemo, exts := db.exts } : DB)
        (List.filter isDemoExt db.exts) ⟨true, none, false⟩ rfl rfl rfl
      rcases hE : extDropLoop reg
        ({ preloadPss := db.preloadPss, schemaDemo := false, addrTable := false,
           btreeIdx := false, ginIdx := false, funcPss := false, roleMonitor := false,
           privDb := false, privSchema := false, privFunc := false,
           searchPathDemo := db.searchPathDemo, exts := db.exts } : DB)
        ⟨true, none, false⟩ (List.filter isDemoExt db.exts) with ⟨t4, c4, r⟩
      rw [hE] at l1 l2 l3
      simp at l1
      subst l1
      simp at l2
      simp [view] at l3
      simp [teardown_demo, revokePhaseF, bestEffortF, exec1F, exec1, applySql, view,
            hpend, hab, hr, hs', hfn', hpf, hps, hat, hbt, hgin, freshConn, hE, l2, l3,
            filter_keepAfter_demo, tearDB, setExts, dropSet, List.mem_filter]
      exact fun x _ => and_comm
  · -- A: no restricted role: every revoke fails and is swallowed; the drops
    -- remove whatever the schema held
    have hr' : db.roleMonitor = false := by simpa using hr
    have hpd : db.privDb = false := hw7.resolve_right (by simp [hr'])
    have hps : db.privSchema = false := hw5.resolve_right (by simp [hr'])
    have hpf : db.privFunc = false := hw6.resolve_right (by simp [hr'])
    by_cases hs : db.schemaDemo = true
    · obtain ⟨l1, l2, l3⟩ := extDropLoop_spec reg
        ({ preloadPss := db.preloadPss, schemaDemo := false, addrTable := false,
           btreeIdx := false, ginIdx := false, funcPss := false, roleMonitor := false,
           privDb := false, privSchema := false, privFunc := false,
           searchPathDemo := db.searchPathDemo, exts := db.exts } : DB)
        (List.filter isDemoExt db.exts) ⟨true, none, false⟩ rfl rfl rfl
      rcases hE : extDropLoop reg
        ({ preloadPss := db.preloadPss, schemaDemo := false, addrTable := false,
           btreeIdx := false, ginIdx := false, funcPss := false, roleMonitor := false,
           privDb := false, privSchema := false, privFunc := false,
           searchPathDemo := db.searchPathDemo, exts := db.exts } : DB)
        ⟨true, none, false⟩ (List.filter isDemoExt db.exts) with ⟨t4, c4, r⟩
      rw [hE] at l1 l2 l3
      simp at l1
      subst l1
      simp at l2
      simp [view] at l3
      simp [teardown_demo, revokePhaseF, bestEffortF, exec1F, exec1, applySql, view,
            hpend, hab, hr', hpd, hps, hpf, hs, freshConn, hE, l2, l3,
            filter_keepAfter_demo, tearDB, setExts, dropSet, List.mem_filter]
      exact fun x _ => and_comm
    · have hs' : db.schemaDemo = false := by simpa using hs
      have hfn' : db.funcPss = false := hw4.resolve_right (by simp [hs'])
      have hat : db.addrTable = false := hw1.resolve_right (by simp [hs'])
      have hbt : db.btreeIdx = false := hw2.resolve_right (by simp [hat])
      have hgin : db.ginIdx = false := hw3.resolve_right (by simp [hat])
      obtain ⟨l1, l2, l3⟩ := extDropLoop_spec reg db
        (List.filter isDemoExt db.exts) ⟨true, none, false⟩ rfl
        (by simp [view, hgin]) (by simp [view, hfn'])
      rcases hE : extDropLoop reg db ⟨true, none, false⟩
        (List.filter isDemoExt db.exts) with ⟨t4, c4, r⟩
      rw [hE] at l1 l2 l3
      simp at l1
      subst l1
      simp at l2
      simp [view] at l3
      simp [teardown_demo, revokePhaseF, bestEffortF, exec1F, exec1, applySql, view,
            hpend, hab, hr', hpd, hps, hpf, hs', hfn', hat, hbt, hgin, freshConn, hE,
            l2, l3, filter_keepAfter_demo, tearDB, setExts, dropSet, List.mem_filter]
      exact fun x _ => and_comm

lemma run_body_reg_preload_true (init : Bool) (db : DB) (hp : db.preloadPss = true) :
    (run_body init false db).reg = db.exts := by
  have hval : validate_demo db freshConn =
      ([Event.sql Sql.selectPreload, Event.sql Sql.selectPgExtension, Event.rollback],
       freshConn, none, true, db.exts) := by
    simp [validate_demo, check_preload_library, check_existing_extensions, exec1, applySql,
          view, freshConn, hp]
  unfold run_body
  rw [if_neg (by simp), hval]

lemma run_body_reg_block (init : Bool) (db : DB) : (run_body init true db).reg = [] := rfl

/-- C2 (counterexample): on the teardown-only path validation never runs, so
the Extension Registry stays empty and teardown drops an extension that was
installed before the run began — pre-existing extensions are NOT preserved
on that path. -/
theorem claimC2_cex :
    "pg_trgm" ∈ dbPreTrgm.exts ∧
    Event.sql (Sql.dropExtension "pg_trgm") ∈ (run_demo true true true dbPreTrgm).tr ∧
    (run_demo true true true dbPreTrgm).db.exts = [] :=
  ⟨by decide, by decide, by decide⟩

/-- C2 (amended): teardown never drops an extension that is in the
Extension Registry as populated in the current run, and drops every demo
extension that is installed but absent from that registry; on validated
runs the registry equals the set of extensions installed before the run, so
pre-existing extensions are preserved there, but on the teardown-only path
the registry is empty (validation is skipped), so any installed demo
extension — pre-existing or not — is dropped. -/
theorem claimC2_amended (reg : List String) (db : DB) (c : Conn) (init : Bool)
    (hWF : WFb db = true) (hpend : c.pend = none) (hab : c.aborted = false) :
    ((∀ x, reg.contains x = true →
        Event.sql (Sql.dropExtension x) ∉ (teardown_demo reg db c).tr) ∧
     (∀ x, x ∈ db.exts → isDemoExt x = true → reg.contains x = false →
        Event.sql (Sql.dropExtension x) ∈ (teardown_demo reg db c).tr) ∧
     (teardown_demo reg db c).err = none) ∧
    (db.preloadPss = true → (run_body init false db).reg = db.exts) ∧
    (run_body init true db).reg = [] := by
  obtain ⟨h1, h2, h3, h4⟩ := teardown_demo_ok reg db c hWF hpend hab
  refine ⟨⟨?_, ?_, h1⟩, fun hp => run_body_reg_preload_true init db hp,
          run_body_reg_block init db⟩
  · intro x hx hm
    obtain ⟨-, -, hcontra⟩ := (h4 x).mp hm
    rw [hx] at hcontra
    exact absurd hcontra (by simp)
  · intro x hx hdx hnx
    exact (h4 x).mpr ⟨hx, hdx, hnx⟩

/-- C2 (witness): with `pg_trgm` pre-installed, a registry containing it
protects it; the empty registry of a teardown-only run lets it be dropped;
a validated run's registry equals the pre-existing extensions. -/
theorem claimC2_witness :
    WFb dbPreTrgm = true ∧
    Event.sql (Sql.dropExtension "pg_trgm") ∉
      (teardown_demo ["pg_trgm"] dbPreTrgm freshConn).tr ∧
    Event.sql (Sql.dropExtension "pg_trgm") ∈ (teardown_demo [] dbPreTrgm freshConn).tr ∧
    (teardown_demo [] dbPreTrgm freshConn).err = none ∧
    (run_body true false dbPreTrgm).reg = dbPreTrgm.exts :=
  ⟨by decide,
   (claimC2_amended ["pg_trgm"] dbPreTrgm freshConn true (by decide) rfl rfl).1.1
     "pg_trgm" (by decide),
   (claimC2_amended [] dbPreTrgm freshConn true (by decide) rfl rfl).1.2.1
     "pg_trgm" (by decide) (by decide) (by decide),
   (claimC2_amended [] dbPreTrgm freshConn true (by decide) rfl rfl).1.2.2,
   (claimC2_amended [] dbPreTrgm freshConn true (by decide) rfl rfl).2.1 (by decide)⟩

lemma tearDB_idem (reg : List String) (db : DB) :
    tearDB reg (tearDB reg db) = tearDB reg db := by
  have hf : (db.exts.filter (keepExt reg)).filter (keepExt reg) =
      db.exts.filter (keepExt reg) := by
    rw [List.filter_filter]
    refine List.filter_congr ?_
    intro x hx
    rw [Bool.and_self]
  show (⟨db.preloadPss, false, false, false, false, false, false, false, false, false,
        db.searchPathDemo, (db.exts.filter (keepExt reg)).filter (keepExt reg)⟩ : DB) =
      tearDB reg db
  rw [hf]
  rfl

/-- C5: teardown is idempotent.  From any well-formed database state, a
standalone teardown run raises no exception; running it a second time on
the resulting state raises no exception either and leaves the state
unchanged; and the final state has the namespace absent, the restricted
role absent, and every still-installed demo extension protected by the
registry. -/
theorem claimC5 (reg : List String) (db : DB) (hWF : WFb db = true) :
    (teardown_demo reg db freshConn).err = none ∧
    (teardown_demo reg (teardown_demo reg db freshConn).db freshConn).err = none ∧
    (teardown_demo reg (teardown_demo reg db freshConn).db freshConn).db =
      (teardown_demo reg db freshConn).db ∧
    (teardown_demo reg db freshConn).db.schemaDemo = false ∧
    (teardown_demo reg db freshConn).db.roleMonitor = false ∧
    (∀ x, x ∈ (teardown_demo reg db freshConn).db.exts → isDemoExt x = true →
       reg.contains x = true) := by
  obtain ⟨h1, h2, h3, h4⟩ := teardown_demo_ok reg db freshConn hWF rfl rfl
  have hWF2 : WFb (tearDB reg db) = true := by simp [WFb, tearDB]
  obtain ⟨g1, g2, g3, g4⟩ := teardown_demo_ok reg (tearDB reg db) freshConn hWF2 rfl rfl
  refine ⟨h1, ?_, ?_, ?_, ?_, ?_⟩
  · rw [h2]
    exact g1
  · rw [h2, g2, tearDB_idem]
  · rw [h2]
    rfl
  · rw [h2]
    rfl
  · rw [h2]
    intro x hx hdx
    simp only [tearDB] at hx
    obtain ⟨-, hkeep⟩ := List.mem_filter.mp hx
    unfold keepExt at hkeep
    rw [hdx] at hkeep
    simpa using hkeep

/-- C5 (witness): a mid-demo state torn down twice with the registry
protecting `pg_trgm`. -/
theorem claimC5_witness :
    WFb dbFull = true ∧
    ((teardown_demo ["pg_trgm"] dbFull freshConn).err = none ∧
     (teardown_demo ["pg_trgm"]
        (teardown_demo ["pg_trgm"] dbFull freshConn).db freshConn).err = none ∧
     (teardown_demo ["pg_trgm"]
        (teardown_demo ["pg_trgm"] dbFull freshConn).db freshConn).db =
       (teardown_demo ["pg_trgm"] dbFull freshConn).db ∧
     (teardown_demo ["pg_trgm"] dbFull freshConn).db.schemaDemo = false ∧
     (teardown_demo ["pg_trgm"] dbFull freshConn).db.roleMonitor = false ∧
     (∀ x, x ∈ (teardown_demo ["pg_trgm"] dbFull freshConn).db.exts →
        isDemoExt x = true → (["pg_trgm"] : List String).contains x = true)) :=
  ⟨by decide, claimC5 ["pg_trgm"] dbFull (by decide)⟩

lemma andThen_ok (p : PhaseOut) (f : DB → Conn → PhaseOut) :
    (andThen p f).err = none →
    (andThen p f).c = (f p.db p.c).c ∧ (f p.db p.c).err = none := by
  unfold andThen
  split
  next t d cc e heq =>
    intro h
    simp at h
  next t d cc heq =>
    split
    next t2 d2 c2 r heq2 =>
      intro h
      simp at h
      subst h
      exact ⟨by rw [heq2], by rw [heq2]⟩

lemma test_addr_gin_index_ok (db : DB) (c : Conn) :
    (test_addr_gin_index db c).err = none → (test_addr_gin_index db c).c = freshConn := by
  unfold test_addr_gin_index
  split
  next t c1 e heq =>
    intro h
    simp at h
  next t c1 heq =>
    split
    next t2 c2 e heq2 =>
      intro h
      simp at h
    next t2 c2 heq2 =>
      intro h
      rfl

lemma demo_unprivileged_user_ok (init : Bool) (db : DB) (c : Conn) :
    (demo_unprivileged_user init db c).err = none →
    (demo_unprivileged_user init db c).c = freshConn := by
  unfold demo_unprivileged_user
  split
  next t0 db0 c0 e heq0 =>
    intro h
    simp at h
  next t0 db0 c0 heq0 =>
    split
    next tu1 u' e hequ1 =>
      intro h
      simp at h
    next tu1 u1 hequ1 =>
      split
      next t1 c1 e heq1 =>
        intro h
        simp at h
      next t1 c1 heq1 =>
        split
        next t2 c2 e heq2 =>
          intro h
          simp at h
        next t2 c2 heq2 =>
          split
          next tu2 u' e hequ2 =>
            intro h
            simp at h
          next tu2 u2 hequ2 =>
            split
            next tu3 u' e hequ3 =>
              intro h
              simp at h
            next tu3 u' hequ3 =>
              intro h
              rfl

lemma check_existing_extensions_ok_conn {db : DB} {c : Conn} {t : List Event} {c2 : Conn}
    {reg : List String} (heq : check_existing_extensions db c = (t, c2, none, reg)) :
    c2 = freshConn := by
  unfold check_existing_extensions at heq
  split at heq <;> simp at heq <;> tauto

/-- C7 (counterexample): when the preload check reports the capability
inactive, the validation phase ends with the SELECT's transaction still
open (no commit or rollback), and with the default flags the teardown phase
then begins on that unresolved transaction — the claimed invariant fails on
this execution path. -/
theorem claimC7_cex :
    (run_body true false dbNoPreload).c.txnOpen = true ∧
    (run_body true false dbNoPreload).err = none ∧
    Event.sql Sql.revokeFunc ∈ (run_demo true true false dbNoPreload).tr :=
  ⟨by decide, by decide, by decide⟩

/-- C7 (amended): every phase other than a failed validation resolves its
transaction: validation ends with the connection freshly resolved whenever
the preload check succeeds; setup always ends in commit or rollback; and
teardown and both demo phases end with the connection resolved whenever
they complete without an exception.  (A validation run whose preload check
fails, and a demo phase that raises, leave the transaction open for the
next phase or the connection context manager.) -/
theorem claimC7_amended (reg : List String) (db : DB) (c : Conn) (init : Bool) :
    ((validate_demo db c).2.2.2.1 = true → (validate_demo db c).2.1 = freshConn) ∧
    (setup_demo reg db c).c = freshConn ∧
    ((teardown_demo reg db c).err = none → (teardown_demo reg db c).c = freshConn) ∧
    ((demo_pg_trgm init db c).err = none → (demo_pg_trgm init db c).c = freshConn) ∧
    ((demo_pg_stat_statements init db c).err = none →
      (demo_pg_stat_statements init db c).c = freshConn) := by
  refine ⟨?_, ?_, ?_, ?_, ?_⟩
  · unfold validate_demo
    split
    next t c1 e x heq =>
      intro h
      simp at h
    next t c1 heq =>
      split
      next t2 c2 e x heq2 =>
        intro h
        simp at h
      next t2 c2 rg heq2 =>
        intro h
        simpa using check_existing_extensions_ok_conn heq2
    next t c1 heq =>
      intro h
      simp at h
  · unfold setup_demo
    split <;> rfl
  · unfold teardown_demo
    split
    split
    next t1 c1 e heq1 =>
      intro h
      simp at h
    next t1 c1 heq1 =>
      split
      next t2 c2 e heq2 =>
        intro h
        simp at h
      next t2 c2 heq2 =>
        split
        next t3 c3 e heq3 =>
          intro h
          simp at h
        next t3 c3 heq3 =>
          split
          next t4 c4 e heq4 =>
            intro h
            simp at h
          next t4 c4 heq4 =>
            intro h
            rfl
  · intro h
    unfold demo_pg_trgm at h ⊢
    obtain ⟨hc, he⟩ := andThen_ok _ _ h
    rw [hc]
    exact test_addr_gin_index_ok _ _ he
  · intro h
    unfold demo_pg_stat_statements at h ⊢
    obtain ⟨hc, he⟩ := andThen_ok _ _ h
    rw [hc]
    exact demo_unprivileged_user_ok _ _ _ he

/-- C7 (witness): concrete successful runs of each phase, showing the
resolved-transaction conclusion at states where each phase completes. -/
theorem claimC7_witness :
    ((validate_demo dbClean freshConn).2.2.2.1 = true ∧
     (validate_demo dbClean freshConn).2.1 = freshConn) ∧
    (setup_demo [] dbClean freshConn).c = freshConn ∧
    ((teardown_demo [] dbFull freshConn).err = none ∧
     (teardown_demo [] dbFull freshConn).c = freshConn) ∧
    ((demo_pg_trgm true dbSchemaLeft freshConn).err = none ∧
     (demo_pg_trgm true dbSchemaLeft freshConn).c = freshConn) ∧
    ((demo_pg_stat_statements true dbWithAddr freshConn).err = none ∧
     (demo_pg_stat_statements true dbWithAddr freshConn).c = freshConn) :=
  ⟨⟨by decide, (claimC7_amended [] dbClean freshConn true).1 (by decide)⟩,
   (claimC7_amended [] dbClean freshConn true).2.1,
   ⟨by decide, (claimC7_amended [] dbFull freshConn true).2.2.1 (by decide)⟩,
   ⟨by decide, (claimC7_amended [] dbSchemaLeft freshConn true).2.2.2.1 (by decide)⟩,
   ⟨by decide, (claimC7_amended [] dbWithAddr freshConn true).2.2.2.2 (by decide)⟩⟩
